import Mathlib

/-!
Verification of the xmtp-agent-examples repository against its
natural-language specification.

The development shallowly embeds the TypeScript sources:
pure functions become Lean functions, the stateful `TossManager` (which
talks to a blob storage and a wallet service) becomes explicit state
passing with `Except` for thrown errors, and the per-message stream
loops become pure step functions from a decoded message to the action
the loop takes.  External services that are not part of the repository
(the XMTP SDK, the Coinbase wallet API, the LLM agent, `JSON.parse`)
appear as explicit inputs of the embedded functions.
-/

namespace XmtpModel

/-- A decoded inbound message event as observed by the stream loops:
`senderInboxId`, the content-type tag (`message.contentType?.typeId`,
absent when the optional chain is undefined), the text content and the
conversation id (fields of `DecodedMessage` used by the examples). -/
structure DecodedMessage where
  senderInboxId : String
  contentTypeId : Option String
  content : String
  conversationId : String
deriving DecidableEq, Repr

end XmtpModel

namespace GroupTossListener

open XmtpModel

/-- One whitespace character class of the JavaScript regex `\s` restricted
to the ASCII whitespace actually produced by chat text. -/
def isSpaceJS (c : Char) : Bool :=
  c = ' ' ∨ c = '\t' ∨ c = '\n' ∨ c = '\r' ∨ c = '\x0b' ∨ c = '\x0c'

/-- `String.prototype.toLowerCase()` as the examples use it on inbox ids
and commands (ASCII data): lowercase every character. -/
def strToLower (s : String) : String := ⟨s.data.map Char.toLower⟩

/-- ASCII-case-insensitive character comparison, as the `/i` regex flag
performs on ASCII letters. -/
def charCI (a b : Char) : Bool := a.toLower = b.toLower

/-- Does the character list start with the pattern characters,
case-insensitively?  (Matching the literal part `@toss` of the regex
`/@toss\s+(.*)/i` at one position.) -/
def startsWithCI : List Char → List Char → Bool
  | [], _ => true
  | _ :: _, [] => false
  | p :: ps, c :: cs => charCI p c && startsWithCI ps cs

/-- Does `/@toss\s+/i` match at this position: the literal `@toss`
case-insensitively, immediately followed by at least one `\s` character? -/
def tossMentionAt (cs : List Char) : Bool :=
  startsWithCI "@toss".data cs &&
    match cs.drop 5 with
    | [] => false
    | c :: _ => isSpaceJS c

/-- The capture group `(.*)` of `/@toss\s+(.*)/i` taken at a match
position: skip the (maximal) `\s+` run, then take characters up to the
next line terminator (`.` does not match `\n` or `\r`). -/
def captureAfterMention (cs : List Char) : List Char :=
  ((cs.drop 5).dropWhile isSpaceJS).takeWhile (fun c => ¬ (c = '\n' ∨ c = '\r'))

/-- Leftmost match of `/@toss\s+(.*)/i`: scan positions left to right and
return the capture at the first position where the pattern matches. -/
def scanTossMention : List Char → Option (List Char)
  | [] => none
  | c :: cs =>
    if tossMentionAt (c :: cs) then some (captureAfterMention (c :: cs))
    else scanTossMention cs

/-- `String.prototype.trim()`: strip `\s` characters from both ends. -/
def trimJS (s : String) : String :=
  ⟨(s.data.dropWhile isSpaceJS).reverse.dropWhile isSpaceJS |>.reverse⟩

/-- `extractCommand` (src/examples/xmtp-group-toss/src/xmtp.ts:97-108):
match `content` against `/@toss\s+(.*)/i` and return the trimmed capture,
or `null` when there is no match. -/
def extractCommand (content : String) : Option String :=
  (scanTossMention content.data).map (fun cap => trimJS ⟨cap⟩)

/-- Whether `@toss` occurs (ASCII-case-insensitively) anywhere in the
content: the precondition "message contains the @toss mention". -/
def hasTossSubstring : List Char → Bool
  | [] => false
  | c :: cs => startsWithCI "@toss".data (c :: cs) || hasTossSubstring cs

/-- The action the `startMessageListener` loop body
(src/examples/xmtp-group-toss/src/xmtp.ts:58-89) takes on one inbound
event: skip (a `continue`) or invoke the per-message handler with the
extracted command.  `convFound` stands for the success of the external
`getConversationById` lookup. -/
inductive ListenerAction
  | skip
  | handle (command : String) (msg : DecodedMessage)
deriving DecidableEq, Repr

/-- The filter-and-dispatch body of `startMessageListener`
(src/examples/xmtp-group-toss/src/xmtp.ts:58-89): skip events from the
client's own inbox id (compared lowercased) or with a content-type id
other than `"text"`, skip non-commands and unknown conversations, and
otherwise invoke the handler. -/
def listenerStep (clientInboxId : String) (msg : DecodedMessage)
    (convFound : Bool) : ListenerAction :=
  if strToLower msg.senderInboxId = strToLower clientInboxId ∨
      msg.contentTypeId ≠ some "text" then
    .skip
  else
    match extractCommand msg.content with
    | none => .skip
    | some command =>
      if convFound then .handle command msg else .skip

end GroupTossListener

namespace GmExample

open XmtpModel

/-- The reply action of the `xmtp-gm` stream callback. -/
inductive GmAction
  | skip
  | send (text : String)
deriving DecidableEq, Repr

/-- The message callback body of `main` (src/examples/xmtp-gm/index.ts:45-80):
skip messages from the agent itself (inbox ids compared lowercased), skip
non-text content types, skip unknown conversations and groups, and
otherwise send `"gm"`.  `convFound` and `isGroup` stand for the external
conversation lookup and its `instanceof Group` test. -/
def gmStep (clientInboxId : String) (msg : DecodedMessage)
    (convFound : Bool) (isGroup : Bool) : GmAction :=
  if GroupTossListener.strToLower msg.senderInboxId =
      GroupTossListener.strToLower clientInboxId then .skip
  else if msg.contentTypeId ≠ some "text" then .skip
  else if ¬ convFound then .skip
  else if isGroup then .skip
  else .send "gm"

end GmExample

namespace GroupTossCommands

/-- `HELP_MESSAGE` (src/examples/xmtp-group-toss/src/index.ts:66-78). -/
def HELP_MESSAGE : String :=
  "Available commands:\n\n@toss <natural language toss> - Create a toss using natural language\n\nfor example:\n\"Will it rain tomorrow for 5\" - Creates a yes/no toss with 5 USDC\n\"Lakers vs Celtics for 10\" - Creates a toss with Lakers and Celtics as options with 10 USDC\n\nOther commands:\n@toss join <tossId> <option> - Join an existing toss with the specified ID and your chosen option\n@toss close <tossId> <option> - Close the toss and set the winning option (only for toss creator)\n@toss help - Show this help message\n"

/-- `command.replace(/^@toss\s+/i, "")` in `handleMessage`
(src/examples/xmtp-group-toss/src/index.ts:1117): remove a leading
case-insensitive `@toss` mention together with the whitespace run after
it, when present. -/
def stripTossPrefix (s : String) : String :=
  if GroupTossListener.tossMentionAt s.data then
    ⟨(s.data.drop 5).dropWhile GroupTossListener.isSpaceJS⟩
  else s

/-- `commandContent` (src/examples/xmtp-group-toss/src/index.ts:1117):
the stripped and trimmed command text passed to `handleCommand`. -/
def commandContentOf (command : String) : String :=
  GroupTossListener.trimJS (stripTossPrefix command)

/-- `String.prototype.split(sep)` for a one-character separator, as
`content.split(" ")` uses it: empty input gives `[""]`, adjacent
separators give empty fields. -/
def splitSepChar (sep : Char) : List Char → List (List Char)
  | [] => [[]]
  | c :: cs =>
    if c = sep then [] :: splitSepChar sep cs
    else
      match splitSepChar sep cs with
      | [] => [[c]]
      | h :: t => (c :: h) :: t

/-- `content.split(" ")` (src/examples/xmtp-group-toss/src/index.ts:97). -/
def splitOnSpace (s : String) : List String :=
  (splitSepChar ' ' s.data).map (fun cs => ⟨cs⟩)

/-- The routing decision of `handleCommand`
(src/examples/xmtp-group-toss/src/index.ts:96-114): either an explicit
command (first word `join`/`close`/`help`, destructured as
`[command, ...args]`) or a natural-language prompt. -/
inductive Dispatch
  | explicit (command : String) (args : List String)
  | natural (content : String)
deriving DecidableEq, Repr

/-- `handleCommand`'s branch selection
(src/examples/xmtp-group-toss/src/index.ts:97-114): split on single
spaces, lowercase the first word, and route. -/
def handleCommandDispatch (content : String) : Dispatch :=
  let commandParts := splitOnSpace content
  let firstWord := GroupTossListener.strToLower (commandParts.headD "")
  if firstWord = "join" ∨ firstWord = "close" ∨ firstWord = "help" then
    .explicit (commandParts.headD "") commandParts.tail
  else
    .natural content

/-- The four arms of the `switch` in `handleExplicitCommand`
(src/examples/xmtp-group-toss/src/index.ts:135-362), with the arguments
each arm reads from `args`. -/
inductive ExplicitCmd
  | joinCmd (tossId : String) (chosenOption : Option String)
  | closeCmd (tossId : Option String) (winningOption : Option String)
  | helpCmd
  | unknownCmd
deriving DecidableEq, Repr

/-- The `switch (command.toLowerCase())` of `handleExplicitCommand`
(src/examples/xmtp-group-toss/src/index.ts:135-362) together with the
argument destructuring done at the top of the `join` and `close` arms
(`args[0]`, `args[1]`, and the `args.length` checks of lines 138-143 and
224-225). -/
def parseExplicit (command : String) (args : List String) : ExplicitCmd :=
  match GroupTossListener.strToLower command with
  | "join" =>
    if args.length < 1 then .joinCmd "" none
    else .joinCmd (args.headD "")
      (if args.length ≥ 2 then some ((args.drop 1).headD "") else none)
  | "close" => .closeCmd args.head? (args.drop 1).head?
  | "help" => .helpCmd
  | _ => .unknownCmd

/-- The replies of the two stateless arms of `handleExplicitCommand`:
`case "help"` returns `HELP_MESSAGE`
(src/examples/xmtp-group-toss/src/index.ts:357-358) and the `default`
arm returns the unknown-command text (lines 360-361); the `join`/`close`
arms consult the `TossManager` and are modelled separately. -/
def explicitReplyStateless : ExplicitCmd → Option String
  | .helpCmd => some HELP_MESSAGE
  | .unknownCmd => some "Unknown command. Type help to see available commands."
  | _ => none

end GroupTossCommands

namespace QueueDualClient

/-- `QueuedMessage` (src/examples/xmtp-queue-dual-client/index.ts:19-24). -/
structure QueuedMessage where
  conversationId : String
  content : String
  priority : Int
  timestamp : Int
deriving DecidableEq, Repr

/-- The total preorder realised by the comparator of
`messageQueue.sort` (src/examples/xmtp-queue-dual-client/index.ts:167-172):
`a` comes no later than `b` when `a` has strictly higher priority, or the
same priority and an earlier-or-equal timestamp. -/
def queueLE (a b : QueuedMessage) : Prop :=
  b.priority < a.priority ∨ (a.priority = b.priority ∧ a.timestamp ≤ b.timestamp)

instance : DecidableRel queueLE := fun a b => by
  unfold queueLE
  infer_instance

instance : IsTotal QueuedMessage queueLE where
  total a b := by
    unfold queueLE
    rcases lt_trichotomy a.priority b.priority with h | h | h
    · exact Or.inr (Or.inl h)
    · rcases le_total a.timestamp b.timestamp with ht | ht
      · exact Or.inl (Or.inr ⟨h, ht⟩)
      · exact Or.inr (Or.inr ⟨h.symm, ht⟩)
    · exact Or.inl (Or.inl h)

instance : IsTrans QueuedMessage queueLE where
  trans a b c hab hbc := by
    unfold queueLE at *
    rcases hab with h | ⟨hp, ht⟩ <;> rcases hbc with h' | ⟨hp', ht'⟩
    · exact Or.inl (h'.trans h)
    · exact Or.inl (hp' ▸ h)
    · exact Or.inl (h'.trans_eq hp.symm)
    · exact Or.inr ⟨hp.trans hp', ht.trans ht'⟩

/-- `processMessageQueue` (src/examples/xmtp-queue-dual-client/index.ts:163-203)
up to the external send: on an empty queue do nothing; otherwise sort the
queue with the comparator (highest priority first, then earliest
timestamp) and `shift()` the head, which is the message handed to
`conversation.send`.  The sort is modelled by `List.insertionSort`,
which like `Array.prototype.sort` produces a permutation ordered by the
comparator. -/
def processMessageQueue (queue : List QueuedMessage) :
    Option QueuedMessage × List QueuedMessage :=
  match List.insertionSort queueLE queue with
  | [] => (none, queue)
  | m :: rest => (some m, rest)

end QueueDualClient

namespace StreamRetry

/-- `MAX_RETRIES` (src/examples/xmtp-skills/xmtp-skills.ts:9 and
src/unnamed/part_016:9). -/
def MAX_RETRIES : Nat := 5

/-- `RETRY_INTERVAL` in milliseconds (src/examples/xmtp-skills/xmtp-skills.ts:10
and src/unnamed/part_016:10). -/
def RETRY_INTERVAL : Nat := 5000

/-- The mutable state of the retry mechanism: the private `retries`
field, initialised to `MAX_RETRIES`
(src/examples/xmtp-skills/xmtp-skills.ts:32, src/unnamed/part_016:32). -/
structure AgentState where
  retries : Nat
deriving DecidableEq, Repr

/-- The observable effect of one `retry()` call: schedule a new
`handleStream` subscription after a delay (`setTimeout(...,
RETRY_INTERVAL)`), or terminate the process (`process.exit(1)`). -/
inductive RetryEffect
  | resubscribe (delayMs : Nat)
  | exitProcess (code : Nat)
deriving DecidableEq, Repr

/-- `retry` (src/examples/xmtp-skills/xmtp-skills.ts:84-97, identical in
src/unnamed/part_016:83-96): if retries remain, decrement the counter
and schedule a re-subscription after `RETRY_INTERVAL`; otherwise exit
the process with code 1. -/
def retry (s : AgentState) : AgentState × RetryEffect :=
  if s.retries > 0 then
    ({ retries := s.retries - 1 }, .resubscribe RETRY_INTERVAL)
  else
    (s, .exitProcess 1)

/-- `onFail` (src/examples/xmtp-skills/xmtp-skills.ts:102-105,
src/unnamed/part_016:101-104): a stream failure invokes `retry`. -/
def onFail (s : AgentState) : AgentState × RetryEffect := retry s

/-- Drive the retry mechanism with `n` consecutive subscription-level
failures, collecting the effect of each `onFail` invocation in order. -/
def runFailures : Nat → AgentState → AgentState × List RetryEffect
  | 0, s => (s, [])
  | n + 1, s =>
    let (s', e) := onFail s
    let (s'', es) := runFailures n s'
    (s'', e :: es)

/-- Whether the `streamAllMessages` call of each variant registers the
failure callback: `src/unnamed/part_016:117-124` passes
`() => { this.onFail(messageHandler); }` as the fourth argument, while
`src/examples/xmtp-skills/xmtp-skills.ts:180` calls
`streamAllMessages()` with no arguments, registering nothing. -/
def helperRegistersOnFail : Bool := true

/-- See `helperRegistersOnFail`: the xmtp-skills subscription
(src/examples/xmtp-skills/xmtp-skills.ts:180) registers no failure
callback. -/
def skillsRegistersOnFail : Bool := false

/-- The effects produced when the subscription fails once: the
registered failure callback runs `onFail` (one `retry` effect); with no
registered callback nothing runs. -/
def effectsOnOneFailure (registersOnFail : Bool) (s : AgentState) :
    List RetryEffect :=
  if registersOnFail then [(onFail s).2] else []

/-- The two events that touch the xmtp-skills agent's `retries` counter:
a subscription-level stream failure (driving `onFail`, were it
registered) and a successfully processed message
(`handleMessageAsync`, src/examples/xmtp-skills/xmtp-skills.ts:141-167,
which executes `this.retries = MAX_RETRIES;` at line 161). -/
inductive SkillsEvent
  | streamFail
  | messageSuccess
deriving DecidableEq, Repr

/-- One event of the xmtp-skills retry state machine: `streamFail` runs
`retry` (producing its effect), `messageSuccess` runs the reset
`this.retries = MAX_RETRIES` of `handleMessageAsync` line 161. -/
def skillsStep (s : AgentState) : SkillsEvent → AgentState × List RetryEffect
  | .streamFail =>
    let (s', e) := retry s
    (s', [e])
  | .messageSuccess => ({ retries := MAX_RETRIES }, [])

/-- Run the xmtp-skills machine over a sequence of events, collecting
all effects in order. -/
def skillsRun (s : AgentState) : List SkillsEvent → AgentState × List RetryEffect
  | [] => (s, [])
  | e :: es =>
    let (s', effs) := skillsStep s e
    let (s'', effs') := skillsRun s' es
    (s'', effs ++ effs')

/-- The number of re-subscriptions among a list of effects. -/
def countResubs (effs : List RetryEffect) : Nat :=
  (effs.filter (fun e =>
    match e with
    | .resubscribe _ => true
    | .exitProcess _ => false)).length

end StreamRetry

namespace CoinToss

open GroupTossListener (strToLower isSpaceJS startsWithCI trimJS)

/-- A participant entry (`Participant`,
src/examples/xmtp-group-toss/src/index.ts:821-824, also
src/unnamed/part_023:214-217): a joined player with the option they
chose.  The source field `option` is called `chosenOpt` here because
`Option` is a Lean type. -/
structure Participant where
  inboxId : String
  chosenOpt : String
deriving DecidableEq, Repr

/-- `TossStatus` (src/examples/xmtp-group-toss/src/index.ts:843-850,
src/unnamed/part_023:236-243). -/
inductive TossStatus
  | CREATED
  | WAITING_FOR_PLAYER
  | READY
  | IN_PROGRESS
  | COMPLETED
  | CANCELLED
deriving DecidableEq, Repr

/-- `CoinTossGame` / `GroupTossName`
(src/examples/xmtp-group-toss/src/index.ts:826-841,
src/unnamed/part_023:219-234; the cointoss example uses the same record
under the name `CoinTossGame`).  Optional source fields are `Option`s. -/
structure CoinTossGame where
  id : String
  creator : String
  tossAmount : String
  status : TossStatus
  participants : List String
  participantOptions : List Participant
  winner : Option String := none
  walletAddress : String
  createdAt : Nat
  tossResult : String
  paymentSuccess : Bool
  transactionLink : Option String := none
  tossTopic : Option String := none
  tossOptions : Option (List String) := none
deriving DecidableEq, Repr

/-- `AgentWalletData` (src/unnamed/part_023:246-252,
src/unnamed/part_024:28-34) as the examples read it: the wallet id, the
agent address and the owning inbox id.  The exported key-material blob
(`walletData`) and the live `wallet` handle are opaque to all the logic
modelled here (they are only passed to the external Coinbase SDK), so
they are not carried. -/
structure AgentWalletData where
  id : String
  agent_address : String
  inboxId : String
deriving DecidableEq, Repr

/-- The two file directories of `StorageService`
(src/unnamed/part_023:16-188): `TOSS_STORAGE_DIR` holding one JSON file
per toss and `WALLET_STORAGE_DIR` holding one JSON file per user wallet,
each file named `<identifier>-<NETWORK_ID>.json` — modelled as
association lists keyed by the identifier. -/
structure Storage where
  tossFiles : List (String × CoinTossGame)
  walletFiles : List (String × AgentWalletData)
deriving Repr

/-- The Coinbase `Transfer` object as the toss examples read it
(src/examples/cointoss/src/toss.ts:8-15 and 353-358): only
`model?.sponsored_send?.transaction_link` is ever accessed, and it may
be absent. -/
structure TransferRec where
  txLink : Option String
deriving DecidableEq, Repr

/-- The trace record of one completed `createTransfer` call
(src/unnamed/part_024:308-337): source address, destination address and
USDC amount.  The model appends one entry per on-chain transfer the
program actually executes. -/
structure SentTransfer where
  fromAddress : String
  toAddress : String
  amount : ℚ
deriving DecidableEq, Repr

/-- The external world a `TossManager` call interacts with, passed
explicitly: `writeOk n` is whether the n-th file write succeeds (the
`saveToFile` catch of src/unnamed/part_023:44-58 returns `false` on a
write error and the callers discard that result); `walletCreate key` is
the outcome of `Wallet.create` for a new wallet under `key` (`.error`
models the throw rethrown by `createWallet`,
src/unnamed/part_024:150-157 and 186-195); `balanceOf addr` is the
on-chain USDC balance `wallet.getBalance` reports for `addr`
(src/unnamed/part_024:273); and `send from dest amount` is the outcome
of `createTransfer` (src/unnamed/part_024:312-317; `.error` models a
throw, which `transfer` rethrows). -/
structure Env where
  writeOk : Nat → Bool
  walletCreate : String → Except String String
  balanceOf : String → ℚ
  send : String → String → ℚ → Except String TransferRec

/-- The state a `TossManager` call reads and writes: the storage
directories, the count of file writes attempted so far (indexing
`Env.writeOk`), and the trace of completed on-chain transfers. -/
structure TMState where
  storage : Storage
  writes : Nat
  sent : List SentTransfer

/-- Writing the file stored under `key` (`fs.writeFile` in `saveToFile`,
src/unnamed/part_023:44-58): replace the existing file or create a new
one. -/
def putFile {α : Type} (files : List (String × α)) (key : String)
    (v : α) : List (String × α) :=
  if (files.find? (fun f => f.1 == key)).isSome then
    files.map (fun f => if f.1 == key then (key, v) else f)
  else files ++ [(key, v)]

/-- Reading the file stored under `key` (`readFromFile`,
src/unnamed/part_023:63-84): the stored record, or `none` when the file
does not exist (the ENOENT branch). -/
def getFile {α : Type} (files : List (String × α)) (key : String) :
    Option α :=
  (files.find? (fun f => f.1 == key)).map (fun f => f.2)

/-- `storage.saveToss` (src/unnamed/part_023:89-92): write the toss file
under `toss.id` via `saveToFile`; a write error is caught inside
`saveToFile`, which returns `false` — a result `saveToss` discards, so a
failed write silently leaves the old file in place. -/
def saveToss (env : Env) (s : TMState) (toss : CoinTossGame) : TMState :=
  if env.writeOk s.writes then
    { storage :=
        { tossFiles := putFile s.storage.tossFiles toss.id toss
          walletFiles := s.storage.walletFiles }
      writes := s.writes + 1
      sent := s.sent }
  else
    { storage := s.storage
      writes := s.writes + 1
      sent := s.sent }

/-- `storage.updateToss` (src/unnamed/part_023:135-137): an alias for
`saveToss`. -/
def updateToss (env : Env) (s : TMState) (toss : CoinTossGame) : TMState :=
  saveToss env s toss

/-- `storage.getToss` (src/unnamed/part_023:97-100): read the toss file
stored under `tossId`. -/
def getToss (s : TMState) (tossId : String) : Option CoinTossGame :=
  getFile s.storage.tossFiles tossId

/-- `storage.saveWallet` (src/unnamed/part_023:142-145): write the
wallet file under `inboxId`; like `saveToss`, a write error is swallowed
by `saveToFile`. -/
def saveWallet (env : Env) (s : TMState) (inboxId : String)
    (w : AgentWalletData) : TMState :=
  if env.writeOk s.writes then
    { storage :=
        { tossFiles := s.storage.tossFiles
          walletFiles := putFile s.storage.walletFiles inboxId w }
      writes := s.writes + 1
      sent := s.sent }
  else
    { storage := s.storage
      writes := s.writes + 1
      sent := s.sent }

/-- `storage.getWallet` (src/unnamed/part_023:150-153): read the wallet
file stored under `inboxId`. -/
def storageGetWallet (s : TMState) (inboxId : String) :
    Option AgentWalletData :=
  getFile s.storage.walletFiles inboxId

/-- `storage.listActiveTosses` (src/unnamed/part_023:105-130): every
stored toss whose status is neither COMPLETED nor CANCELLED, in file
order. -/
def listActiveTosses (s : TMState) : List CoinTossGame :=
  (s.storage.tossFiles.map (fun f => f.2)).filter
    (fun t => decide (t.status ≠ .COMPLETED ∧ t.status ≠ .CANCELLED))

/-- `WalletService.createWallet` (src/unnamed/part_024:137-196): create
a wallet via the SDK (whose failure is rethrown as a `Wallet creation
failed` error), build the `AgentWalletData` record whose id and
`agent_address` are both the wallet's default address, and save it under
`inboxId` (the write result being swallowed as in `saveWallet`). -/
def createWallet (env : Env) (s : TMState) (inboxId : String) :
    TMState × Except String AgentWalletData :=
  match env.walletCreate inboxId with
  | .error e => (s, .error ("Wallet creation failed: " ++ e))
  | .ok addr =>
    let walletInfo : AgentWalletData :=
      { id := addr, agent_address := addr, inboxId := inboxId }
    (saveWallet env s inboxId walletInfo, .ok walletInfo)

/-- `WalletService.getWallet` (src/unnamed/part_024:198-215): return the
stored wallet record when one exists, and otherwise auto-create one via
`createWallet` (so a missing wallet is never reported: the call either
yields a record or propagates the creation throw).  Re-importing the
stored key material (`Wallet.import`) is assumed to reproduce the stored
record. -/
def getWallet (env : Env) (s : TMState) (inboxId : String) :
    TMState × Except String AgentWalletData :=
  match storageGetWallet s inboxId with
  | none => createWallet env s inboxId
  | some rec => (s, .ok rec)

/-- viem's `isAddress` as `transfer` uses it: `transfer` lowercases its
destination first (src/unnamed/part_024:248), so on its inputs the
checksum branch is never reached and the check reduces to `0x` followed
by exactly 40 lowercase hexadecimal digits. -/
def isAddressLower (s : String) : Bool :=
  decide (s.data.length = 42) && s.data.take 2 == ['0', 'x'] &&
    (s.data.drop 2).all (fun c => c.isDigit || ('a' ≤ c && c ≤ 'f'))

/-- `getTossIdFromAddress` (src/unnamed/part_024:220-241): `null` for a
non-address, otherwise the id of the first active toss whose wallet
address matches case-insensitively. -/
def getTossIdFromAddress (s : TMState) (address : String) :
    Option String :=
  if isAddressLower address = false then none
  else
    match (listActiveTosses s).find?
        (fun t => strToLower t.walletAddress == strToLower address) with
    | some t => some t.id
    | none => none

/-- The destination-resolution step of `transfer`
(src/unnamed/part_024:289-306): when the (lowercased) destination is the
wallet address of an active toss, reroute to that toss's wallet (looked
up via the auto-creating `getWallet`, whose throw propagates); otherwise
use the raw address. -/
def transferDest (env : Env) (s : TMState) (toAddress : String) :
    TMState × Except String String :=
  match getTossIdFromAddress s toAddress with
  | none => (s, .ok toAddress)
  | some tossId =>
    match getWallet env s tossId with
    | (s1, .error e) => (s1, .error e)
    | (s1, .ok tossWallet) => (s1, .ok tossWallet.agent_address)

/-- `WalletService.transfer` (src/unnamed/part_024:243-344): lowercase
the destination, fetch the source wallet (auto-creating; a throw
propagates), then return `undefined` (`.ok none`) when the amount is
falsy, when the source balance is below the amount, or when the
destination is neither an address nor a user id containing a colon;
otherwise resolve the destination (possibly rerouting to a toss wallet),
execute `createTransfer` (a throw is rethrown; `transfer.wait` errors
are swallowed) and return the transfer object.  A completed transfer is
recorded in the `sent` trace.  The `!from` guard of line 258 is
unreachable (`getWallet` returns a record or throws) and `NaN` amounts
are modelled as 0 (`parseFloatQ` parses failed parses to 0). -/
def transfer (env : Env) (s : TMState) (inboxId toAddress0 : String)
    (amount : ℚ) : TMState × Except String (Option TransferRec) :=
  let toAddress := strToLower toAddress0
  match getWallet env s inboxId with
  | (s1, .error e) => (s1, .error e)
  | (s1, .ok fromW) =>
    if amount = 0 then (s1, .ok none)
    else if env.balanceOf fromW.agent_address < amount then (s1, .ok none)
    else if isAddressLower toAddress = false ∧
        toAddress.data.contains ':' = false then (s1, .ok none)
    else
      match transferDest env s1 toAddress with
      | (s2, .error e) => (s2, .error e)
      | (s2, .ok dest) =>
        match env.send fromW.agent_address dest amount with
        | .error e => (s2, .error e)
        | .ok rec =>
          ({ storage := s2.storage
             writes := s2.writes
             sent := s2.sent ++ [⟨fromW.agent_address, dest, amount⟩] },
           .ok (some rec))

/-- Numeric value of a decimal digit character. -/
def digitVal (c : Char) : Nat := c.toNat - '0'.toNat

/-- Value of a list of decimal digit characters. -/
def natOfDigits (cs : List Char) : Nat :=
  cs.foldl (fun acc c => 10 * acc + digitVal c) 0

/-- `parseFloat` on the decimal literals the toss examples produce
(`"5"`, `"0.1"`, `"10"`): the longest prefix `digits[.digits]` is parsed
exactly into a rational; a string with no leading digit (`NaN` in JS) is
modelled as 0. -/
def parseFloatQ (s : String) : ℚ :=
  let cs := s.data
  let intPart := cs.takeWhile Char.isDigit
  let rest := cs.drop intPart.length
  let fracPart :=
    match rest with
    | '.' :: r => r.takeWhile Char.isDigit
    | _ => []
  (natOfDigits intPart : ℚ) + (natOfDigits fracPart : ℚ) / (10 : ℚ) ^ fracPart.length

/-- Numeric value of an all-digits toss id, as the filename regex of
`getLastIdToss` (digits anchored at the start, before the dash) reads
it; non-numeric ids count as 0. -/
def parseIdNat (s : String) : Nat :=
  if s.data ≠ [] ∧ s.data.all Char.isDigit then natOfDigits s.data else 0

/-- `getLastIdToss` (src/examples/cointoss/src/toss.ts:386-408,
src/examples/xmtp-group-toss/src/index.ts:756-778): the maximal numeric
id among the stored toss files (named `<id>-<network>.json`), or 0 when
there are none. -/
def getLastIdToss (s : TMState) : Nat :=
  (s.storage.tossFiles.map (fun f => parseIdNat f.1)).foldr max 0

/-- `createGame` (src/examples/cointoss/src/toss.ts:47-91, identical in
src/examples/xmtp-group-toss/src/index.ts:452-499): allocate id
`getLastIdToss + 1`, create the toss wallet (a creation throw
propagates), build the fresh record with status CREATED and empty
participant lists, save it (the write result being swallowed), and
return the reloaded record, falling back to the in-memory record when
the reload finds nothing.  `now` stands for `Date.now()`. -/
def createGame (env : Env) (s : TMState) (creator tossAmount : String)
    (now : Nat) : TMState × Except String CoinTossGame :=
  let tossId := Nat.repr (getLastIdToss s + 1)
  match createWallet env s tossId with
  | (s1, .error e) => (s1, .error e)
  | (s1, .ok tossWallet) =>
    let toss : CoinTossGame :=
      { id := tossId, creator := creator, tossAmount := tossAmount,
        status := .CREATED, participants := [], participantOptions := [],
        walletAddress := tossWallet.agent_address, createdAt := now,
        tossResult := "", paymentSuccess := false }
    let s2 := saveToss env s1 toss
    (s2, .ok ((getToss s2 tossId).getD toss))

/-- The parsed form of a natural-language toss prompt (`ParsedToss`,
src/examples/xmtp-group-toss/src/index.ts:859-863,
src/unnamed/part_023:261-265). -/
structure ParsedToss where
  topic : String
  options : List String
  amount : String
deriving DecidableEq, Repr

/-- The tail of `createGameFromPrompt` after the natural-language parse
(src/examples/cointoss/src/toss.ts:470-481,
src/examples/xmtp-group-toss/src/index.ts:805-816): create the game with
the parsed amount (propagating a wallet-creation throw), attach the
parsed topic and options, and persist the updated record. -/
def createGameWithDetails (env : Env) (s : TMState) (creator : String)
    (parsed : ParsedToss) (now : Nat) : TMState × Except String CoinTossGame :=
  match createGame env s creator parsed.amount now with
  | (s1, .error e) => (s1, .error e)
  | (s1, .ok toss) =>
    let toss' := { toss with
      tossTopic := some parsed.topic
      tossOptions := some parsed.options }
    (updateToss env s1 toss', .ok toss')

/-- The option validation of `addPlayerToGame`
(src/examples/cointoss/src/toss.ts:119-131): when the toss has a
non-empty option list, the chosen option must occur in it,
case-insensitively. -/
def invalidOption (toss : CoinTossGame) (chosenOption : String) : Bool :=
  match toss.tossOptions with
  | some opts =>
    decide (opts.length > 0 ∧
      strToLower chosenOption ∉ opts.map strToLower)
  | none => false

/-- The updated record built by a successful `addPlayerToGame`
(src/examples/cointoss/src/toss.ts:133-147): the player appended to both
lists and the status set from the new participant count. -/
def addedToss (toss : CoinTossGame) (player chosenOption : String) :
    CoinTossGame :=
  let participants' := toss.participants ++ [player]
  { toss with
    participants := participants',
    participantOptions := toss.participantOptions ++ [⟨player, chosenOption⟩],
    status :=
      if participants'.length = 1 then .WAITING_FOR_PLAYER
      else if participants'.length ≥ 2 then .WAITING_FOR_PLAYER
      else toss.status }

/-- `addPlayerToGame` (src/examples/cointoss/src/toss.ts:93-151,
identical in src/examples/xmtp-group-toss/src/index.ts:501-559): look
the toss up, reject when it is not accepting players, when the player
already joined, when the join is unpaid, or when the chosen option is
invalid; otherwise append the player to both lists, set the status, and
persist (the write result being swallowed).  Thrown errors are `.error`;
the source throws before any write, so the state is unchanged on
error. -/
def addPlayerToGame (env : Env) (s : TMState)
    (tossId player chosenOption : String) (hasPaid : Bool) :
    TMState × Except String CoinTossGame :=
  match getToss s tossId with
  | none => (s, .error "Toss not found")
  | some toss =>
    if toss.status ≠ .CREATED ∧ toss.status ≠ .WAITING_FOR_PLAYER then
      (s, .error "Toss is not accepting players")
    else if player ∈ toss.participants then
      (s, .error "You are already in this toss")
    else if hasPaid = false then
      (s, .error ("Please pay " ++ toss.tossAmount ++ " USDC to join the toss"))
    else if invalidOption toss chosenOption then
      (s, .error ("Invalid option: " ++ chosenOption))
    else
      let toss' := addedToss toss player chosenOption
      (updateToss env s toss', .ok toss')

/-- `joinGame` (src/examples/cointoss/src/toss.ts:153-172): the same
guards as `addPlayerToGame`, but without adding the player — it only
returns the toss record. -/
def joinGame (s : TMState) (tossId player : String) :
    Except String CoinTossGame :=
  match getToss s tossId with
  | none => .error "Toss not found"
  | some toss =>
    if toss.status ≠ .CREATED ∧ toss.status ≠ .WAITING_FOR_PLAYER then
      .error "Toss is not accepting players"
    else if player ∈ toss.participants then
      .error "You are already in this toss"
    else .ok toss

/-- `[...new Set(xs)]` (src/examples/cointoss/src/toss.ts:282):
deduplicate keeping the first occurrence of each element. -/
def dedupFirstAux (seen : List String) : List String → List String
  | [] => []
  | x :: xs =>
    if x ∈ seen then dedupFirstAux seen xs
    else x :: dedupFirstAux (x :: seen) xs

/-- See `dedupFirstAux`. -/
def dedupFirst (xs : List String) : List String := dedupFirstAux [] xs

/-- The `options` computation of `executeCoinToss`
(src/examples/cointoss/src/toss.ts:279-282): the toss's option list when
non-empty, otherwise the deduplicated participant choices. -/
def optionsOf (toss : CoinTossGame) : List String :=
  match toss.tossOptions with
  | some opts =>
    if opts.length ≠ 0 then opts
    else dedupFirst (toss.participantOptions.map (fun p => p.chosenOpt))
  | none => dedupFirst (toss.participantOptions.map (fun p => p.chosenOpt))

/-- The `matchingOption` lookup of `executeCoinToss`
(src/examples/cointoss/src/toss.ts:293-296). -/
def matchingOptionFor (toss : CoinTossGame) (winningOption : String) :
    Option String :=
  (optionsOf toss).find? (fun o => strToLower o == strToLower winningOption)

/-- The `winners` filter of `executeCoinToss`
(src/examples/cointoss/src/toss.ts:308-311). -/
def winnersFor (toss : CoinTossGame) (matching : String) : List Participant :=
  toss.participantOptions.filter
    (fun p => strToLower p.chosenOpt == strToLower matching)

/-- `totalPot` (src/examples/cointoss/src/toss.ts:321,
src/examples/xmtp-group-toss/src/index.ts:695): the parsed toss amount
times the number of participants. -/
def totalPot (toss : CoinTossGame) : ℚ :=
  parseFloatQ toss.tossAmount * toss.participants.length

/-- `prizePerWinner` (src/examples/cointoss/src/toss.ts:322,
src/examples/xmtp-group-toss/src/index.ts:696): the pot split evenly
among the winners. -/
def prizePerWinner (toss : CoinTossGame) (winners : List Participant) : ℚ :=
  totalPot toss / winners.length

/-- `winners.map((w) => w.inboxId).join(",")`
(src/examples/cointoss/src/toss.ts:370). -/
def joinComma : List String → String
  | [] => ""
  | [x] => x
  | x :: y :: xs => x ++ "," ++ joinComma (y :: xs)

/-- The `status = IN_PROGRESS` update of `executeCoinToss`
(src/examples/cointoss/src/toss.ts:289). -/
def inProgressToss (toss : CoinTossGame) : CoinTossGame :=
  { toss with status := .IN_PROGRESS }

/-- The `status = CANCELLED` update written by the failure paths of
`executeCoinToss` (src/examples/cointoss/src/toss.ts:299-301,
314-316). -/
def cancelledToss (toss : CoinTossGame) : CoinTossGame :=
  { toss with status := .CANCELLED, paymentSuccess := false }

/-- The validation-and-`IN_PROGRESS` phase of `executeCoinToss`
(src/examples/cointoss/src/toss.ts:259-291): look the toss up, require
status WAITING_FOR_PLAYER, at least two participants, a non-empty
participant-option list and at least two distinct options, then set the
status to IN_PROGRESS and persist that intermediate state (the write
result being swallowed). -/
def executeSetInProgress (env : Env) (s : TMState) (tossId : String) :
    TMState × Except String CoinTossGame :=
  match getToss s tossId with
  | none => (s, .error "Toss not found")
  | some toss =>
    if toss.status ≠ .WAITING_FOR_PLAYER then
      (s, .error "Toss is not ready for execution")
    else if toss.participants.length < 2 then
      (s, .error "Toss needs at least 2 players")
    else if toss.participantOptions.length = 0 then
      (s, .error "No participant options found in the toss")
    else if (optionsOf toss).length < 2 then
      (s, .error "Not enough unique options to choose from")
    else
      let toss' := inProgressToss toss
      (updateToss env s toss', .ok toss')

/-- The prize-distribution loop of `executeCoinToss`
(src/examples/cointoss/src/toss.ts:333-366): for each winner with a
non-empty inbox id, look its wallet up (auto-creating) and transfer
`prize` from the toss wallet; a throw from either call is caught and the
loop continues with whatever state changes happened before the throw; a
transfer that returns `undefined` is skipped.  The successful winners
and the first transaction link are accumulated. -/
def distributePrizes (env : Env) (twInboxId : String) (prize : ℚ) :
    List Participant → TMState → List String → Option String →
    TMState × List String × Option String
  | [], s, succ, link => (s, succ, link)
  | w :: ws, s, succ, link =>
    if w.inboxId = "" then distributePrizes env twInboxId prize ws s succ link
    else
      match getWallet env s w.inboxId with
      | (s1, .error _) => distributePrizes env twInboxId prize ws s1 succ link
      | (s1, .ok wd) =>
        match transfer env s1 twInboxId wd.agent_address prize with
        | (s2, .error _) =>
          distributePrizes env twInboxId prize ws s2 succ link
        | (s2, .ok none) =>
          distributePrizes env twInboxId prize ws s2 succ link
        | (s2, .ok (some rec)) =>
          distributePrizes env twInboxId prize ws s2 (succ ++ [w.inboxId])
            (if link.isNone then rec.txLink else link)

/-- The successful tail of `executeCoinToss`
(src/examples/cointoss/src/toss.ts:305-375), taking the record with
`tossResult` already set: distribute `prizePerWinner` to every winner,
then persist the COMPLETED record with the winner list, the
all-transfers-succeeded flag and the first transaction link. -/
def finishSuccess (env : Env) (s : TMState) (toss1 : CoinTossGame)
    (tossWallet : AgentWalletData) : TMState × Except String CoinTossGame :=
  let winners := winnersFor toss1 toss1.tossResult
  let prize := prizePerWinner toss1 winners
  let (s1, successfulTransfers, link) :=
    distributePrizes env tossWallet.inboxId prize winners s []
      toss1.transactionLink
  let toss2 := { toss1 with
    status := .COMPLETED,
    winner := some (joinComma (winners.map (fun w => w.inboxId))),
    paymentSuccess := successfulTransfers.length == winners.length,
    transactionLink := link }
  (updateToss env s1 toss2, .ok toss2)

/-- The branching part of the result phase of `executeCoinToss`
(src/examples/cointoss/src/toss.ts:293-375): resolve the winning option,
cancelling the toss (persisting the CANCELLED record before throwing)
when it is invalid or has no winners; then fetch the toss wallet via the
auto-creating `getWallet`, whose throw propagates (the `!tossWallet`
cancel branch of lines 326-331 is unreachable because `getWallet`
returns a record or throws), and run the successful tail. -/
def executeFinish (env : Env) (s : TMState) (toss : CoinTossGame)
    (winningOption : String) : TMState × Except String CoinTossGame :=
  match matchingOptionFor toss winningOption with
  | none =>
    (updateToss env s (cancelledToss toss),
     .error ("Invalid winning option provided: " ++ winningOption))
  | some matching =>
    let toss1 := { toss with tossResult := matching }
    let winners := winnersFor toss1 matching
    if winners.length = 0 then
      (updateToss env s (cancelledToss toss1),
       .error ("No winners found for option: " ++ matching))
    else
      match getWallet env s toss1.id with
      | (s1, .error e) => (s1, .error e)
      | (s1, .ok tossWallet) => finishSuccess env s1 toss1 tossWallet

/-- `executeCoinToss` (src/examples/cointoss/src/toss.ts:253-376,
identical in src/examples/xmtp-group-toss/src/index.ts:627-750): the
validation-and-IN_PROGRESS phase followed by the result phase. -/
def executeCoinToss (env : Env) (s : TMState) (tossId winningOption : String) :
    TMState × Except String CoinTossGame :=
  match executeSetInProgress env s tossId with
  | (s', .error e) => (s', .error e)
  | (s', .ok toss') => executeFinish env s' toss' winningOption

/-- `cancelGame` (src/examples/cointoss/src/toss.ts:423-436). -/
def cancelGame (env : Env) (s : TMState) (tossId : String) :
    TMState × Except String CoinTossGame :=
  match getToss s tossId with
  | none => (s, .error "Toss not found")
  | some toss =>
    if toss.status = .COMPLETED then
      (s, .error "Cannot cancel completed toss")
    else
      let toss' := { toss with status := .CANCELLED }
      (updateToss env s toss', .ok toss')

/-- The length/duplicate invariant of the two participant lists. -/
def listInv (t : CoinTossGame) : Prop :=
  t.participants.length = t.participantOptions.length ∧ t.participants.Nodup

/-- Every toss record stored in the toss directory satisfies
`listInv`. -/
def storeInv (s : TMState) : Prop :=
  ∀ kv ∈ s.storage.tossFiles, listInv kv.2

end CoinToss
namespace GroupTossAgent

open GroupTossListener (strToLower isSpaceJS startsWithCI trimJS)
open CoinToss

/-- One chunk of the LLM agent stream as `processMessage` reads it
(src/examples/xmtp-group-toss/src/index.ts:866-882): an `agent` or
`tools` chunk whose first message content may or may not be a string. -/
inductive StreamChunk
  | agentChunk (content : Option String)
  | toolsChunk (content : Option String)
deriving DecidableEq, Repr

/-- The fixed apology returned by the catch of `processMessage`
(src/examples/xmtp-group-toss/src/index.ts:1019 and
src/examples/xmtp-group-toss/src/langchain.ts:160). -/
def apologyReply : String :=
  "Sorry, I encountered an error while processing your request. Please try again."

/-- `processMessage` (src/examples/xmtp-group-toss/src/index.ts:990-1021):
accumulate the string contents of the agent/tools chunks of the LLM
stream and trim the result; when the outbound `agent.stream` call (or
the iteration over it) throws, catch the exception and return the fixed
apology.  The external LLM call is the `agentOutcome` input: `.ok
chunks` for a successful stream, `.error e` for a throw. -/
def processMessage (agentOutcome : Except String (List StreamChunk)) :
    String :=
  match agentOutcome with
  | .error _ => apologyReply
  | .ok chunks =>
    trimJS (chunks.foldl (fun response c =>
      match c with
      | .agentChunk (some s) => response ++ s ++ "\n"
      | .toolsChunk (some s) => response ++ s ++ "\n"
      | _ => response) "")

/-- Everything from (and including) the last closing brace of the list:
used for the greedy regex of `extractJsonFromResponse`. -/
def takeToLastClose (cs : List Char) : List Char :=
  ((cs.reverse.dropWhile (fun c => c ≠ '}')).reverse)

/-- The JSON-extraction regex of `extractJsonFromResponse`
(src/examples/xmtp-group-toss/src/langchain.ts:169-180; the same helper
is imported by src/examples/xmtp-group-toss/src/index.ts): the leftmost
match of an opening brace followed greedily by anything up to a closing
brace, i.e. the slice from the first opening brace that has a closing
brace after it, up to the last closing brace. -/
def jsonMatchList : List Char → Option (List Char)
  | [] => none
  | c :: cs =>
    if c = '{' then
      if '}' ∈ cs then some ('{' :: takeToLastClose cs)
      else jsonMatchList cs
    else jsonMatchList cs

/-- The JSON object shape `TossJsonResponse` the parsing prompt asks the
LLM for (fields `valid`, `reason`, `topic`, `options`, `amount`, each
possibly absent). -/
structure TossJson where
  valid : Option Bool := none
  reason : Option String := none
  topic : Option String := none
  options : Option (List String) := none
  amount : Option String := none
deriving DecidableEq, Repr

/-- `extractJsonFromResponse`
(src/examples/xmtp-group-toss/src/langchain.ts:169-180): match the
brace-to-brace slice and `JSON.parse` it, returning `null` when there is
no match or parsing throws.  `JSON.parse` is the external `jsonParse`
input (`none` models a parse error). -/
def extractJsonFromResponse (jsonParse : String → Option TossJson)
    (response : String) : Option TossJson :=
  match jsonMatchList response.data with
  | none => none
  | some cs => jsonParse ⟨cs⟩

/-- The direct amount-extraction regex of `parseNaturalLanguageToss`
(src/examples/xmtp-group-toss/src/index.ts:1050): a case-insensitive
`for`, whitespace, then a decimal number at the end of the prompt
(optionally followed by whitespace); returns the number text. -/
def extractedAmountOf (prompt : String) : Option String :=
  let r := prompt.data.reverse
  let r1 := r.dropWhile isSpaceJS
  let d1 := r1.takeWhile Char.isDigit
  if d1 = [] then none
  else
    let r2 := r1.drop d1.length
    let (numRev, r3) :=
      match r2 with
      | '.' :: rest =>
        let d2 := rest.takeWhile Char.isDigit
        if d2 = [] then (d1, r2)
        else (d1 ++ '.' :: d2, rest.drop d2.length)
      | _ => (d1, r2)
    let spaces := r3.takeWhile isSpaceJS
    if spaces = [] then none
    else if startsWithCI "rof".data (r3.drop spaces.length) then
      some ⟨numRev.reverse⟩
    else none

/-- `DEFAULT_OPTIONS` (src/examples/xmtp-group-toss/src/index.ts:17). -/
def DEFAULT_OPTIONS : List String := ["yes", "no"]

/-- `DEFAULT_AMOUNT` (src/examples/xmtp-group-toss/src/index.ts:18). -/
def DEFAULT_AMOUNT : String := "1"

/-- `parseNaturalLanguageToss`
(src/examples/xmtp-group-toss/src/index.ts:1030-1108): short prompts
return the default parse; otherwise ask the agent to parse the prompt
(`processMessage`), extract the JSON from its response, throw when no
JSON is found or the request is marked invalid, and otherwise build the
result with defaults, preferring the directly regex-extracted amount. -/
def parseNaturalLanguageToss (jsonParse : String → Option TossJson)
    (agentOutcome : Except String (List StreamChunk)) (prompt : String) :
    Except String ParsedToss :=
  let defaultResult : ParsedToss :=
    ⟨prompt, DEFAULT_OPTIONS, DEFAULT_AMOUNT⟩
  if prompt.data.length < 3 then .ok defaultResult
  else
    let extractedAmount := extractedAmountOf prompt
    let response := processMessage agentOutcome
    match extractJsonFromResponse jsonParse response with
    | none => .error "Invalid toss request: No JSON found in response"
    | some parsedJson =>
      if parsedJson.valid = some false then
        .error ("Invalid toss request: " ++ parsedJson.reason.getD "undefined")
      else
        .ok
          { topic := parsedJson.topic.getD prompt
            options :=
              match parsedJson.options with
              | some opts =>
                if opts.length ≥ 2 then
                  [opts.headD "", (opts.drop 1).headD ""]
                else DEFAULT_OPTIONS
              | none => DEFAULT_OPTIONS
            amount :=
              match extractedAmount with
              | some a => a
              | none =>
                match parsedJson.amount with
                | some a => if a.data = [] then DEFAULT_AMOUNT else a
                | none => DEFAULT_AMOUNT }

/-- `createGameFromPrompt`
(src/examples/xmtp-group-toss/src/index.ts:780-817): parse the prompt
(propagating a thrown parse error), then create and persist the game
with the parsed details (propagating a wallet-creation throw). -/
def createGameFromPrompt (jsonParse : String → Option TossJson)
    (agentOutcome : Except String (List StreamChunk)) (env : Env)
    (s : TMState) (creator prompt : String) (now : Nat) :
    TMState × Except String CoinTossGame :=
  match parseNaturalLanguageToss jsonParse agentOutcome prompt with
  | .error e => (s, .error e)
  | .ok parsed => createGameWithDetails env s creator parsed now

/-- `handleNaturalLanguageCommand`
(src/examples/xmtp-group-toss/src/index.ts:374-411): reject balances
under 0.01 USDC with an insufficiency reply, otherwise create the toss
from the prompt (propagating thrown errors) and build the confirmation
reply.  The external balance lookup (`getBalance`) is the
`balance`/`address` input. -/
def handleNaturalLanguageCommand (jsonParse : String → Option TossJson)
    (agentOutcome : Except String (List StreamChunk)) (env : Env)
    (balance : ℚ) (address : Option String) (s : TMState)
    (prompt inboxId : String) (now : Nat) : TMState × Except String String :=
  if balance < 1 / 100 then
    (s, .ok ("Insufficient USDC balance. You need at least 0.01 USDC to create a toss. Your balance: "
      ++ toString balance ++ " USDC\nTransfer USDC to your wallet address: "
      ++ address.getD "undefined"))
  else
    match createGameFromPrompt jsonParse agentOutcome env s inboxId prompt
        now with
    | (s', .error e) => (s', .error e)
    | (s', .ok toss) =>
      let response := "🎲 Toss Created! 🎲\n\n"
        ++ "Toss ID: " ++ toss.id ++ "\n"
        ++ "Topic: \"" ++ toss.tossTopic.getD "undefined" ++ "\"\n"
        ++ (match toss.tossOptions with
            | some opts =>
              if opts.length = 2 then
                "Options: " ++ opts.headD "" ++ " or "
                  ++ (opts.drop 1).headD "" ++ "\n"
              else ""
            | none => "")
        ++ "Toss Amount: " ++ toss.tossAmount ++ " USDC\n\n"
        ++ "Other players can join with: join " ++ toss.id ++ " <option>\n"
        ++ "When everyone has joined, you can close the toss with: close "
        ++ toss.id ++ " <option>"
      (s', .ok response)

/-- The natural-language branch of `handleCommand` together with its
catch (src/examples/xmtp-group-toss/src/index.ts:105-118): taken when
the first word of the content is not join/close/help; a thrown error is
caught and its message becomes the reply sent to the user. -/
def handleCommandNaturalReply (jsonParse : String → Option TossJson)
    (agentOutcome : Except String (List StreamChunk)) (env : Env)
    (balance : ℚ) (address : Option String) (s : TMState)
    (content inboxId : String) (now : Nat) : TMState × String :=
  match handleNaturalLanguageCommand jsonParse agentOutcome env balance
      address s content inboxId now with
  | (s', .ok r) => (s', r)
  | (s', .error e) => (s', e)

end GroupTossAgent
namespace Witness

open CoinToss

/-- A valid lowercase address for the witness toss wallet. -/
def addrToss : String := "0xaaaaaaaaaaaaaaaaaaaaaaaaaaaaaaaaaaaaaaaa"

/-- A valid lowercase address for player p1's wallet. -/
def addrP1 : String := "0xbbbbbbbbbbbbbbbbbbbbbbbbbbbbbbbbbbbbbbbb"

/-- A valid lowercase address for player p2's wallet. -/
def addrP2 : String := "0xcccccccccccccccccccccccccccccccccccccccc"

/-- A concrete benign environment: every file write succeeds, wallet
creation yields the toss address, every wallet holds 100 USDC, and every
on-chain transfer completes with a transaction link. -/
def wEnv : Env :=
  { writeOk := fun _ => true
    walletCreate := fun _ => .ok addrToss
    balanceOf := fun _ => 100
    send := fun _ _ _ => .ok ⟨some "tx:link"⟩ }

/-- The same environment with every balance zero: the toss wallet was
never actually funded, so every prize transfer hits the
insufficient-balance branch. -/
def wEnvLow : Env :=
  { writeOk := fun _ => true
    walletCreate := fun _ => .ok addrToss
    balanceOf := fun _ => 0
    send := fun _ _ _ => .ok ⟨some "tx:link"⟩ }

/-- The wallet records of the two players, present in storage from the
start (as after an earlier payment flow). -/
def wWalletP1 : AgentWalletData := ⟨addrP1, addrP1, "p1"⟩

/-- See `wWalletP1`. -/
def wWalletP2 : AgentWalletData := ⟨addrP2, addrP2, "p2"⟩

/-- The toss wallet record `createGame` saves under the toss id. -/
def wTossWallet : AgentWalletData := ⟨addrToss, addrToss, "1"⟩

/-- A concrete starting state: no toss files, wallet files for the two
players, no writes attempted, no transfers sent. -/
def wInit : TMState :=
  { storage :=
      { tossFiles := []
        walletFiles := [("p1", wWalletP1), ("p2", wWalletP2)] }
    writes := 0
    sent := [] }

/-- Creating the witness toss: amount `"5"`, options `["yes","no"]`. -/
def wCreate : TMState × Except String CoinTossGame :=
  createGameWithDetails wEnv wInit "creator"
    ⟨"rain tomorrow", ["yes", "no"], "5"⟩ 0

/-- Player p1 joins the witness toss choosing `yes`, having paid. -/
def wAdd1 : TMState × Except String CoinTossGame :=
  addPlayerToGame wEnv wCreate.1 "1" "p1" "yes" true

/-- Player p2 joins the witness toss choosing `yes`, having paid. -/
def wAdd2 : TMState × Except String CoinTossGame :=
  addPlayerToGame wEnv wAdd1.1 "1" "p2" "yes" true

/-- The toss record stored after p1's join. -/
def wT1 : CoinTossGame :=
  { id := "1", creator := "creator", tossAmount := "5",
    status := .WAITING_FOR_PLAYER, participants := ["p1"],
    participantOptions := [⟨"p1", "yes"⟩], winner := none,
    walletAddress := addrToss, createdAt := 0, tossResult := "",
    paymentSuccess := false, transactionLink := none,
    tossTopic := some "rain tomorrow", tossOptions := some ["yes", "no"] }

/-- The toss record stored after both joins. -/
def wT2 : CoinTossGame :=
  { id := "1", creator := "creator", tossAmount := "5",
    status := .WAITING_FOR_PLAYER,
    participants := ["p1", "p2"],
    participantOptions := [⟨"p1", "yes"⟩, ⟨"p2", "yes"⟩],
    winner := none, walletAddress := addrToss, createdAt := 0,
    tossResult := "", paymentSuccess := false, transactionLink := none,
    tossTopic := some "rain tomorrow", tossOptions := some ["yes", "no"] }

/-- The creation step replayed under the zero-balance environment (the
creation and join steps never consult balances, so the stored records
are the same). -/
def cCreate : TMState × Except String CoinTossGame :=
  createGameWithDetails wEnvLow wInit "creator"
    ⟨"rain tomorrow", ["yes", "no"], "5"⟩ 0

/-- See `cCreate`: p1 joins under the zero-balance environment. -/
def cAdd1 : TMState × Except String CoinTossGame :=
  addPlayerToGame wEnvLow cCreate.1 "1" "p1" "yes" true

/-- See `cCreate`: p2 joins under the zero-balance environment. -/
def cAdd2 : TMState × Except String CoinTossGame :=
  addPlayerToGame wEnvLow cAdd1.1 "1" "p2" "yes" true

end Witness
namespace CoinToss

theorem find_replace_self {α : Type} (key : String) (v : α) :
    ∀ fs : List (String × α),
      (fs.find? (fun f => f.1 == key)).isSome = true →
      (fs.map (fun f => if f.1 == key then (key, v) else f)).find?
        (fun f => f.1 == key) = some (key, v) := by
  intro fs
  induction fs with
  | nil => intro h; simp at h
  | cons x xs ih =>
    intro h
    by_cases hx : (x.1 == key) = true
    · have hx' : (if x.1 == key then (key, v) else x) = (key, v) := by
        rw [if_pos hx]
      simp only [List.map_cons, hx', List.find?_cons, beq_self_eq_true]
    · have hxf : (x.1 == key) = false := by simpa using hx
      simp only [List.map_cons, if_neg hx]
      simp only [List.find?_cons, hxf] at h ⊢
      exact ih h

theorem find_append_self {α : Type} (key : String) (v : α) :
    ∀ fs : List (String × α),
      fs.find? (fun f => f.1 == key) = none →
      (fs ++ [(key, v)]).find? (fun f => f.1 == key) = some (key, v) := by
  intro fs
  induction fs with
  | nil =>
    intro _
    simp only [List.nil_append]
    exact List.find?_cons_of_pos _ (by simp)
  | cons x xs ih =>
    intro h
    have hx : (x.1 == key) = false := by
      cases hxb : (x.1 == key) with
      | false => rfl
      | true =>
        simp only [List.find?_cons, hxb] at h
        simp at h
    simp only [List.find?_cons, hx] at h
    simp only [List.cons_append, List.find?_cons, hx]
    exact ih h

theorem getFile_putFile_self {α : Type} (fs : List (String × α))
    (key : String) (v : α) :
    getFile (putFile fs key v) key = some v := by
  unfold putFile getFile
  by_cases h : (fs.find? (fun f => f.1 == key)).isSome
  · rw [if_pos h, find_replace_self key v fs h]
    rfl
  · rw [if_neg h,
      find_append_self key v fs (Option.not_isSome_iff_eq_none.mp h)]
    rfl

theorem find?_append_of_some {α : Type} (p : α → Bool) (l2 : List α) :
    ∀ (l1 : List α) (x : α), l1.find? p = some x →
      (l1 ++ l2).find? p = some x := by
  intro l1
  induction l1 with
  | nil => intro x h; simp at h
  | cons a as ih =>
    intro x h
    cases ha : p a with
    | true =>
      simp only [List.find?_cons, ha] at h
      simp only [List.cons_append, List.find?_cons, ha]
      exact h
    | false =>
      simp only [List.find?_cons, ha] at h
      simp only [List.cons_append, List.find?_cons, ha]
      exact ih x h

theorem getFile_append_of_some {α : Type} (fs l2 : List (String × α))
    (key : String) (w : α) (h : getFile fs key = some w) :
    getFile (fs ++ l2) key = some w := by
  unfold getFile at h ⊢
  cases hf : fs.find? (fun f => f.1 == key) with
  | none => rw [hf] at h; simp at h
  | some x =>
    rw [hf] at h
    rw [find?_append_of_some _ l2 fs x hf]
    exact h

theorem getFile_eq_none_iff {α : Type} (fs : List (String × α))
    (key : String) :
    getFile fs key = none ↔ fs.find? (fun f => f.1 == key) = none := by
  unfold getFile
  cases hf : fs.find? (fun f => f.1 == key) <;> simp

theorem getFile_putFile_absent {α : Type} (fs : List (String × α))
    (k0 key : String) (v : α) (w : α)
    (hk : getFile fs k0 = none) (h : getFile fs key = some w) :
    getFile (putFile fs k0 v) key = some w := by
  unfold putFile
  rw [if_neg (by
    rw [(getFile_eq_none_iff fs k0).mp hk]
    simp)]
  exact getFile_append_of_some fs [(k0, v)] key w h

theorem mem_putFile {α : Type} (fs : List (String × α)) (k : String)
    (v : α) (kv : String × α) (h : kv ∈ putFile fs k v) :
    kv ∈ fs ∨ kv = (k, v) := by
  unfold putFile at h
  split at h
  · rcases List.mem_map.mp h with ⟨x, hx, hxe⟩
    by_cases hxk : (x.1 == k) = true
    · right
      rw [if_pos hxk] at hxe
      exact hxe.symm
    · left
      rw [if_neg hxk] at hxe
      rwa [← hxe]
  · rcases List.mem_append.mp h with h1 | h2
    · exact Or.inl h1
    · right
      simpa using h2

theorem getFile_mem {α : Type} (fs : List (String × α)) (k : String)
    (v : α) (h : getFile fs k = some v) : ∃ kv ∈ fs, kv.2 = v := by
  unfold getFile at h
  cases hf : fs.find? (fun f => f.1 == k) with
  | none => rw [hf] at h; simp at h
  | some kv =>
    rw [hf] at h
    refine ⟨kv, List.mem_of_find?_eq_some hf, ?_⟩
    simpa using h

end CoinToss

namespace CoinToss

theorem saveToss_tossFiles_writeOk (env : Env) (s : TMState)
    (t : CoinTossGame) (h : env.writeOk s.writes = true) :
    (saveToss env s t).storage.tossFiles =
      putFile s.storage.tossFiles t.id t := by
  unfold saveToss
  rw [if_pos h]

theorem saveToss_walletFiles (env : Env) (s : TMState) (t : CoinTossGame) :
    (saveToss env s t).storage.walletFiles = s.storage.walletFiles := by
  unfold saveToss
  split <;> rfl

theorem saveToss_sent (env : Env) (s : TMState) (t : CoinTossGame) :
    (saveToss env s t).sent = s.sent := by
  unfold saveToss
  split <;> rfl

theorem saveToss_writes (env : Env) (s : TMState) (t : CoinTossGame) :
    (saveToss env s t).writes = s.writes + 1 := by
  unfold saveToss
  split <;> rfl

theorem saveWallet_tossFiles (env : Env) (s : TMState) (k : String)
    (w : AgentWalletData) :
    (saveWallet env s k w).storage.tossFiles = s.storage.tossFiles := by
  unfold saveWallet
  split <;> rfl

theorem saveWallet_sent (env : Env) (s : TMState) (k : String)
    (w : AgentWalletData) : (saveWallet env s k w).sent = s.sent := by
  unfold saveWallet
  split <;> rfl

theorem saveWallet_writes (env : Env) (s : TMState) (k : String)
    (w : AgentWalletData) : (saveWallet env s k w).writes = s.writes + 1 := by
  unfold saveWallet
  split <;> rfl

theorem getToss_saveToss_self (env : Env) (s : TMState) (t : CoinTossGame)
    (h : env.writeOk s.writes = true) :
    getToss (saveToss env s t) t.id = some t := by
  show getFile (saveToss env s t).storage.tossFiles t.id = some t
  rw [saveToss_tossFiles_writeOk env s t h]
  exact getFile_putFile_self _ _ _

theorem storedWallet_saveToss (env : Env) (s : TMState) (t : CoinTossGame)
    (k : String) :
    storageGetWallet (saveToss env s t) k = storageGetWallet s k := by
  show getFile (saveToss env s t).storage.walletFiles k = _
  rw [saveToss_walletFiles]
  rfl

theorem getToss_saveWallet (env : Env) (s : TMState) (k0 : String)
    (w : AgentWalletData) (k : String) :
    getToss (saveWallet env s k0 w) k = getToss s k := by
  show getFile (saveWallet env s k0 w).storage.tossFiles k = _
  rw [saveWallet_tossFiles]
  rfl

theorem storedWallet_saveWallet_self (env : Env) (s : TMState) (k : String)
    (w : AgentWalletData) (h : env.writeOk s.writes = true) :
    storageGetWallet (saveWallet env s k w) k = some w := by
  show getFile (saveWallet env s k w).storage.walletFiles k = some w
  unfold saveWallet
  rw [if_pos h]
  exact getFile_putFile_self _ _ _

theorem storedWallet_saveWallet_absent (env : Env) (s : TMState)
    (k0 : String) (w0 : AgentWalletData) (k : String) (w : AgentWalletData)
    (hk : storageGetWallet s k0 = none) (h : storageGetWallet s k = some w) :
    storageGetWallet (saveWallet env s k0 w0) k = some w := by
  show getFile (saveWallet env s k0 w0).storage.walletFiles k = some w
  unfold saveWallet
  split
  · exact getFile_putFile_absent _ _ _ _ _ hk h
  · exact h

theorem createWallet_ok (env : Env) (s : TMState) (k : String)
    (addr : String) (h : env.walletCreate k = .ok addr) :
    createWallet env s k =
      (saveWallet env s k ⟨addr, addr, k⟩, .ok ⟨addr, addr, k⟩) := by
  unfold createWallet
  rw [h]

theorem getWallet_of_stored (env : Env) (s : TMState) (k : String)
    (w : AgentWalletData) (h : storageGetWallet s k = some w) :
    getWallet env s k = (s, .ok w) := by
  unfold getWallet
  rw [h]

end CoinToss

namespace CoinToss

theorem getWallet_frame (env : Env) (s : TMState) (k : String) :
    (getWallet env s k).1.storage.tossFiles = s.storage.tossFiles ∧
    (getWallet env s k).1.sent = s.sent ∧
    (∀ k' w, storageGetWallet s k' = some w →
      storageGetWallet (getWallet env s k).1 k' = some w) := by
  unfold getWallet
  cases hk : storageGetWallet s k with
  | some rec => exact ⟨rfl, rfl, fun k' w h => h⟩
  | none =>
    unfold createWallet
    cases hc : env.walletCreate k with
    | error e => exact ⟨rfl, rfl, fun k' w h => h⟩
    | ok addr =>
      refine ⟨saveWallet_tossFiles _ _ _ _, saveWallet_sent _ _ _ _, ?_⟩
      intro k' w h
      exact storedWallet_saveWallet_absent env s k _ k' w hk h

theorem transferDest_frame (env : Env) (s : TMState) (a : String) :
    (transferDest env s a).1.storage.tossFiles = s.storage.tossFiles ∧
    (transferDest env s a).1.sent = s.sent ∧
    (∀ k w, storageGetWallet s k = some w →
      storageGetWallet (transferDest env s a).1 k = some w) := by
  unfold transferDest
  cases getTossIdFromAddress s a with
  | none => exact ⟨rfl, rfl, fun k w h => h⟩
  | some tid =>
    dsimp only
    rcases hg : getWallet env s tid with ⟨s1, res⟩
    have hf := getWallet_frame env s tid
    rw [hg] at hf
    cases res with
    | error e => exact hf
    | ok tw => exact hf

theorem transfer_frame (env : Env) (s : TMState) (i a : String) (q : ℚ) :
    (transfer env s i a q).1.storage.tossFiles = s.storage.tossFiles ∧
    (∀ k w, storageGetWallet s k = some w →
      storageGetWallet (transfer env s i a q).1 k = some w) ∧
    ((transfer env s i a q).1.sent = s.sent ∨
      ∃ x, x.amount = q ∧
        (transfer env s i a q).1.sent = s.sent ++ [x]) := by
  unfold transfer
  dsimp only
  rcases hg : getWallet env s i with ⟨s1, res⟩
  have hgf := getWallet_frame env s i
  rw [hg] at hgf
  obtain ⟨hg1, hg2, hg3⟩ := hgf
  cases res with
  | error e => exact ⟨hg1, hg3, Or.inl hg2⟩
  | ok fromW =>
    dsimp only
    split
    · exact ⟨hg1, hg3, Or.inl hg2⟩
    · split
      · exact ⟨hg1, hg3, Or.inl hg2⟩
      · split
        · exact ⟨hg1, hg3, Or.inl hg2⟩
        · rcases hd : transferDest env s1 (GroupTossListener.strToLower a)
            with ⟨s2, res2⟩
          have hdf := transferDest_frame env s1
            (GroupTossListener.strToLower a)
          rw [hd] at hdf
          obtain ⟨hd1, hd2, hd3⟩ := hdf
          cases res2 with
          | error e =>
            exact ⟨hd1.trans hg1, fun k w h => hd3 k w (hg3 k w h),
              Or.inl (hd2.trans hg2)⟩
          | ok dest =>
            dsimp only
            cases hs : env.send fromW.agent_address dest q with
            | error e =>
              exact ⟨hd1.trans hg1, fun k w h => hd3 k w (hg3 k w h),
                Or.inl (hd2.trans hg2)⟩
            | ok rec =>
              refine ⟨hd1.trans hg1, fun k w h => hd3 k w (hg3 k w h),
                Or.inr ⟨⟨fromW.agent_address, dest, q⟩, rfl, ?_⟩⟩
              show s2.sent ++ _ = s.sent ++ _
              rw [hd2, hg2]

theorem transfer_pays (env : Env) (sp : TMState) (i a : String) (q : ℚ)
    (fromW : AgentWalletData) (rec : TransferRec)
    (hfrom : storageGetWallet sp i = some fromW)
    (hq : ¬ q = 0)
    (hbal : ¬ env.balanceOf fromW.agent_address < q)
    (hvalid : isAddressLower (GroupTossListener.strToLower a) = true)
    (hreroute : getTossIdFromAddress sp
      (GroupTossListener.strToLower a) = none)
    (hsend : env.send fromW.agent_address
      (GroupTossListener.strToLower a) q = .ok rec) :
    transfer env sp i a q =
      ({ storage := sp.storage
         writes := sp.writes
         sent := sp.sent ++
           [⟨fromW.agent_address, GroupTossListener.strToLower a, q⟩] },
       .ok (some rec)) := by
  have htd : transferDest env sp (GroupTossListener.strToLower a) =
      (sp, .ok (GroupTossListener.strToLower a)) := by
    unfold transferDest
    rw [hreroute]
  unfold transfer
  rw [getWallet_of_stored env sp i fromW hfrom]
  dsimp only
  rw [if_neg hq, if_neg hbal, if_neg (by simp [hvalid]), htd]
  dsimp only
  rw [hsend]

theorem transfer_balance_fail (env : Env) (s : TMState) (i a : String)
    (q : ℚ) (hq : ¬ q = 0) (hbal : ∀ addr, env.balanceOf addr < q) :
    (transfer env s i a q).1.sent = s.sent ∧
    ∀ rec, (transfer env s i a q).2 ≠ .ok (some rec) := by
  unfold transfer
  dsimp only
  rcases hg : getWallet env s i with ⟨s1, res⟩
  have hgf := getWallet_frame env s i
  rw [hg] at hgf
  cases res with
  | error e => exact ⟨hgf.2.1, by intro rec h; cases h⟩
  | ok fromW =>
    dsimp only
    rw [if_neg hq, if_pos (hbal fromW.agent_address)]
    refine ⟨hgf.2.1, ?_⟩
    intro rec h
    simp at h

end CoinToss

namespace CoinToss

theorem getTossIdFromAddress_congr (s s' : TMState) (a : String)
    (h : s'.storage.tossFiles = s.storage.tossFiles) :
    getTossIdFromAddress s' a = getTossIdFromAddress s a := by
  unfold getTossIdFromAddress listActiveTosses
  rw [h]

theorem distributePrizes_frame (env : Env) (twid : String) (prize : ℚ) :
    ∀ (ws : List Participant) (sp : TMState) (succ : List String)
      (link : Option String),
      (distributePrizes env twid prize ws sp succ
          link).1.storage.tossFiles = sp.storage.tossFiles ∧
      (∀ k w, storageGetWallet sp k = some w →
        storageGetWallet
          (distributePrizes env twid prize ws sp succ link).1 k = some w) ∧
      (∀ e ∈ sp.sent,
        e ∈ (distributePrizes env twid prize ws sp succ link).1.sent) := by
  intro ws
  induction ws with
  | nil => intro sp succ link; exact ⟨rfl, fun k w h => h, fun e he => he⟩
  | cons w rest ih =>
    intro sp succ link
    unfold distributePrizes
    split
    · exact ih sp succ link
    · rcases hg : getWallet env sp w.inboxId with ⟨s1, res⟩
      have hgf := getWallet_frame env sp w.inboxId
      rw [hg] at hgf
      obtain ⟨hg1, hg2, hg3⟩ := hgf
      cases res with
      | error e =>
        obtain ⟨i1, i2, i3⟩ := ih s1 succ link
        refine ⟨i1.trans hg1, fun k w' h => i2 k w' (hg3 k w' h), ?_⟩
        intro e' he
        exact i3 e' (by rw [hg2]; exact he)
      | ok wd =>
        dsimp only
        rcases ht : transfer env s1 twid wd.agent_address prize
          with ⟨s2, res2⟩
        have htf := transfer_frame env s1 twid wd.agent_address prize
        rw [ht] at htf
        obtain ⟨ht1, ht2, ht3⟩ := htf
        have hsent : ∀ e ∈ s1.sent, e ∈ s2.sent := by
          intro e he
          rcases ht3 with h | ⟨x, _, hxe⟩
          · rw [h]; exact he
          · rw [hxe]; exact List.mem_append_left _ he
        cases res2 with
        | error e =>
          obtain ⟨i1, i2, i3⟩ := ih s2 succ link
          refine ⟨i1.trans (ht1.trans hg1),
            fun k w' h => i2 k w' (ht2 k w' (hg3 k w' h)), ?_⟩
          intro e' he
          exact i3 e' (hsent e' (by rw [hg2]; exact he))
        | ok o =>
          cases o with
          | none =>
            obtain ⟨i1, i2, i3⟩ := ih s2 succ link
            refine ⟨i1.trans (ht1.trans hg1),
              fun k w' h => i2 k w' (ht2 k w' (hg3 k w' h)), ?_⟩
            intro e' he
            exact i3 e' (hsent e' (by rw [hg2]; exact he))
          | some rec =>
            obtain ⟨i1, i2, i3⟩ := ih s2 (succ ++ [w.inboxId])
              (if link.isNone then rec.txLink else link)
            refine ⟨i1.trans (ht1.trans hg1),
              fun k w' h => i2 k w' (ht2 k w' (hg3 k w' h)), ?_⟩
            intro e' he
            exact i3 e' (hsent e' (by rw [hg2]; exact he))

theorem distributePrizes_amounts (env : Env) (twid : String) (prize : ℚ) :
    ∀ (ws : List Participant) (sp : TMState) (succ : List String)
      (link : Option String),
      ∀ e ∈ (distributePrizes env twid prize ws sp succ link).1.sent,
        e ∈ sp.sent ∨ e.amount = prize := by
  intro ws
  induction ws with
  | nil => intro sp succ link e he; exact Or.inl he
  | cons w rest ih =>
    intro sp succ link e he
    rw [distributePrizes] at he
    revert he
    split
    · intro he; exact ih sp succ link e he
    · rcases hg : getWallet env sp w.inboxId with ⟨s1, res⟩
      have hgf := getWallet_frame env sp w.inboxId
      rw [hg] at hgf
      obtain ⟨-, hg2, -⟩ := hgf
      cases res with
      | error er =>
        intro he
        rcases ih s1 succ link e he with h | h
        · exact Or.inl (by rw [hg2] at h; exact h)
        · exact Or.inr h
      | ok wd =>
        dsimp only
        rcases ht : transfer env s1 twid wd.agent_address prize
          with ⟨s2, res2⟩
        have htf := transfer_frame env s1 twid wd.agent_address prize
        rw [ht] at htf
        obtain ⟨-, -, ht3⟩ := htf
        have hstep : ∀ e' ∈ s2.sent, e' ∈ sp.sent ∨ e'.amount = prize := by
          intro e' he'
          rcases ht3 with h | ⟨x, hx, hxe⟩
          · rw [h, hg2] at he'
            exact Or.inl he'
          · rw [hxe] at he'
            rcases List.mem_append.mp he' with h1 | h2
            · rw [hg2] at h1
              exact Or.inl h1
            · right
              rw [List.mem_singleton.mp h2]
              exact hx
        cases res2 with
        | error er =>
          intro he
          rcases ih s2 succ link e he with h | h
          · exact hstep e h
          · exact Or.inr h
        | ok o =>
          cases o with
          | none =>
            intro he
            rcases ih s2 succ link e he with h | h
            · exact hstep e h
            · exact Or.inr h
          | some rec =>
            intro he
            rcases ih s2 (succ ++ [w.inboxId])
                (if link.isNone then rec.txLink else link) e he with h | h
            · exact hstep e h
            · exact Or.inr h

theorem distributePrizes_covers (env : Env) (twid : String) (prize : ℚ)
    (p : Participant) (wd tw : AgentWalletData) (rec : TransferRec)
    (hq : ¬ prize = 0)
    (hbal : ¬ env.balanceOf tw.agent_address < prize)
    (hvalid : isAddressLower
      (GroupTossListener.strToLower wd.agent_address) = true)
    (hsend : env.send tw.agent_address
      (GroupTossListener.strToLower wd.agent_address) prize = .ok rec)
    (hpne : ¬ p.inboxId = "") :
    ∀ (ws : List Participant) (sp : TMState) (succ : List String)
      (link : Option String),
      p ∈ ws →
      storageGetWallet sp p.inboxId = some wd →
      storageGetWallet sp twid = some tw →
      getTossIdFromAddress sp
        (GroupTossListener.strToLower wd.agent_address) = none →
      (⟨tw.agent_address, GroupTossListener.strToLower wd.agent_address,
          prize⟩ : SentTransfer) ∈
        (distributePrizes env twid prize ws sp succ link).1.sent := by
  intro ws
  induction ws with
  | nil => intro sp succ link hp; simp at hp
  | cons w rest ih =>
    intro sp succ link hp hwd htw hrt
    rcases List.mem_cons.mp hp with rfl | hmem
    · unfold distributePrizes
      rw [if_neg hpne, getWallet_of_stored env sp p.inboxId wd hwd]
      dsimp only
      rw [transfer_pays env sp twid wd.agent_address prize tw rec htw hq
        hbal hvalid hrt hsend]
      dsimp only
      refine (distributePrizes_frame env twid prize rest _ _ _).2.2 _ ?_
      exact List.mem_append_right _ (List.mem_singleton.mpr rfl)
    · unfold distributePrizes
      split
      · exact ih sp succ link hmem hwd htw hrt
      · rcases hg : getWallet env sp w.inboxId with ⟨s1, res⟩
        have hgf := getWallet_frame env sp w.inboxId
        rw [hg] at hgf
        obtain ⟨hg1, -, hg3⟩ := hgf
        have hrt1 : getTossIdFromAddress s1
            (GroupTossListener.strToLower wd.agent_address) = none := by
          rw [getTossIdFromAddress_congr sp s1 _ hg1]
          exact hrt
        cases res with
        | error er =>
          exact ih s1 succ link hmem (hg3 _ _ hwd) (hg3 _ _ htw) hrt1
        | ok wdw =>
          dsimp only
          rcases ht : transfer env s1 twid wdw.agent_address prize
            with ⟨s2, res2⟩
          have htf := transfer_frame env s1 twid wdw.agent_address prize
          rw [ht] at htf
          obtain ⟨ht1, ht2, -⟩ := htf
          have hrt2 : getTossIdFromAddress s2
              (GroupTossListener.strToLower wd.agent_address) = none := by
            rw [getTossIdFromAddress_congr s1 s2 _ ht1]
            exact hrt1
          cases res2 with
          | error er =>
            exact ih s2 succ link hmem (ht2 _ _ (hg3 _ _ hwd))
              (ht2 _ _ (hg3 _ _ htw)) hrt2
          | ok o =>
            cases o with
            | none =>
              exact ih s2 succ link hmem (ht2 _ _ (hg3 _ _ hwd))
                (ht2 _ _ (hg3 _ _ htw)) hrt2
            | some rec2 =>
              exact ih s2 (succ ++ [w.inboxId])
                (if link.isNone then rec2.txLink else link) hmem
                (ht2 _ _ (hg3 _ _ hwd)) (ht2 _ _ (hg3 _ _ htw)) hrt2

theorem distributePrizes_noPay (env : Env) (twid : String) (prize : ℚ)
    (hq : ¬ prize = 0) (hbal : ∀ addr, env.balanceOf addr < prize) :
    ∀ (ws : List Participant) (sp : TMState) (succ : List String)
      (link : Option String),
      (distributePrizes env twid prize ws sp succ link).2.1 = succ ∧
      (distributePrizes env twid prize ws sp succ link).1.sent = sp.sent := by
  intro ws
  induction ws with
  | nil => intro sp succ link; exact ⟨rfl, rfl⟩
  | cons w rest ih =>
    intro sp succ link
    unfold distributePrizes
    split
    · exact ih sp succ link
    · rcases hg : getWallet env sp w.inboxId with ⟨s1, res⟩
      have hgf := getWallet_frame env sp w.inboxId
      rw [hg] at hgf
      obtain ⟨-, hg2, -⟩ := hgf
      cases res with
      | error er =>
        obtain ⟨i1, i2⟩ := ih s1 succ link
        exact ⟨i1, i2.trans hg2⟩
      | ok wd =>
        dsimp only
        have hbf := transfer_balance_fail env s1 twid wd.agent_address
          prize hq hbal
        rcases ht : transfer env s1 twid wd.agent_address prize
          with ⟨s2, res2⟩
        rw [ht] at hbf
        obtain ⟨hb1, hb2⟩ := hbf
        cases res2 with
        | error er =>
          obtain ⟨i1, i2⟩ := ih s2 succ link
          exact ⟨i1, i2.trans (hb1.trans hg2)⟩
        | ok o =>
          cases o with
          | none =>
            obtain ⟨i1, i2⟩ := ih s2 succ link
            exact ⟨i1, i2.trans (hb1.trans hg2)⟩
          | some rec => exact absurd rfl (hb2 rec)

end CoinToss

namespace CoinToss

theorem addedToss_status (t : CoinTossGame) (p c : String) :
    (addedToss t p c).status = .WAITING_FOR_PLAYER := by
  unfold addedToss
  simp only [List.length_append, List.length_cons, List.length_nil]
  split
  · rfl
  · split
    · rfl
    · rename_i h1 h2
      omega

theorem addedToss_fields (t : CoinTossGame) (p c : String) :
    (addedToss t p c).id = t.id ∧
    (addedToss t p c).tossAmount = t.tossAmount ∧
    (addedToss t p c).tossOptions = t.tossOptions ∧
    (addedToss t p c).participants = t.participants ++ [p] ∧
    (addedToss t p c).participantOptions = t.participantOptions ++ [⟨p, c⟩] :=
  ⟨rfl, rfl, rfl, rfl, rfl⟩

theorem invalidOption_false_of_mem (t : CoinTossGame) (c : String)
    (opts : List String) (hopts : t.tossOptions = some opts)
    (hc : GroupTossListener.strToLower c ∈
      opts.map GroupTossListener.strToLower) :
    invalidOption t c = false := by
  simp only [invalidOption, hopts]
  simp [hc]

theorem optionsOf_of_some (t : CoinTossGame) (opts : List String)
    (hopts : t.tossOptions = some opts) (hne : opts ≠ []) :
    optionsOf t = opts := by
  simp only [optionsOf, hopts]
  rw [if_pos (fun h => hne (List.eq_nil_of_length_eq_zero h))]

theorem matchingOptionFor_yes_no (t : CoinTossGame) (w : String)
    (hopts : t.tossOptions = some ["yes", "no"])
    (hw : GroupTossListener.strToLower w = "yes" ∨
      GroupTossListener.strToLower w = "no") :
    matchingOptionFor t w =
      some (if GroupTossListener.strToLower w = "yes" then "yes"
        else "no") := by
  unfold matchingOptionFor
  rw [optionsOf_of_some t _ hopts (by simp)]
  rcases hw with h | h
  · rw [if_pos h]
    have h1 : (GroupTossListener.strToLower "yes" ==
        GroupTossListener.strToLower w) = true := by
      rw [h]; decide
    simp only [List.find?_cons, h1]
  · rw [if_neg (by simp [h])]
    have h1 : (GroupTossListener.strToLower "yes" ==
        GroupTossListener.strToLower w) = false := by
      rw [h]; decide
    have h2 : (GroupTossListener.strToLower "no" ==
        GroupTossListener.strToLower w) = true := by
      rw [h]; decide
    simp only [List.find?_cons, h1, h2]

theorem strToLower_matching_eq (w : String)
    (hw : GroupTossListener.strToLower w = "yes" ∨
      GroupTossListener.strToLower w = "no") :
    GroupTossListener.strToLower
        (if GroupTossListener.strToLower w = "yes" then "yes" else "no") =
      GroupTossListener.strToLower w := by
  rcases hw with h | h
  · rw [if_pos h, h]; decide
  · rw [if_neg (by simp [h]), h]; decide

theorem winnersFor_ne_nil_of_mem (t : CoinTossGame) (matching : String)
    (p : Participant) (hp : p ∈ t.participantOptions)
    (hc : GroupTossListener.strToLower p.chosenOpt =
      GroupTossListener.strToLower matching) :
    winnersFor t matching ≠ [] :=
  List.ne_nil_of_mem (List.mem_filter.mpr ⟨hp, by simp [hc]⟩)

end CoinToss

namespace CoinToss

theorem createGame_ok (env : Env) (s : TMState) (creator amount : String)
    (now : Nat) (addr : String)
    (hwc : env.walletCreate (Nat.repr (getLastIdToss s + 1)) = .ok addr)
    (hw2 : env.writeOk (s.writes + 1) = true) :
    createGame env s creator amount now =
      (saveToss env
        (saveWallet env s (Nat.repr (getLastIdToss s + 1))
          ⟨addr, addr, Nat.repr (getLastIdToss s + 1)⟩)
        { id := Nat.repr (getLastIdToss s + 1), creator := creator,
          tossAmount := amount, status := .CREATED, participants := [],
          participantOptions := [], walletAddress := addr,
          createdAt := now, tossResult := "", paymentSuccess := false },
       .ok
         { id := Nat.repr (getLastIdToss s + 1), creator := creator,
           tossAmount := amount, status := .CREATED, participants := [],
           participantOptions := [], walletAddress := addr,
           createdAt := now, tossResult := "", paymentSuccess := false }) := by
  unfold createGame
  dsimp only
  rw [createWallet_ok env s _ addr hwc]
  dsimp only
  have hst : getToss
      (saveToss env (saveWallet env s (Nat.repr (getLastIdToss s + 1))
        ⟨addr, addr, Nat.repr (getLastIdToss s + 1)⟩)
        { id := Nat.repr (getLastIdToss s + 1), creator := creator,
          tossAmount := amount, status := .CREATED, participants := [],
          participantOptions := [], walletAddress := addr,
          createdAt := now, tossResult := "", paymentSuccess := false })
      (Nat.repr (getLastIdToss s + 1)) =
      some
        { id := Nat.repr (getLastIdToss s + 1), creator := creator,
          tossAmount := amount, status := .CREATED, participants := [],
          participantOptions := [], walletAddress := addr,
          createdAt := now, tossResult := "", paymentSuccess := false } :=
    getToss_saveToss_self env _ _ (by
      rw [saveWallet_writes]
      exact hw2)
  rw [hst]
  rfl

theorem createGameWithDetails_ok (env : Env) (s : TMState)
    (creator : String) (parsed : ParsedToss) (now : Nat) (addr : String)
    (hwr : ∀ n, env.writeOk n = true)
    (hwc : env.walletCreate (Nat.repr (getLastIdToss s + 1)) = .ok addr) :
    ∃ s1,
      createGameWithDetails env s creator parsed now =
        (s1, .ok
          { id := Nat.repr (getLastIdToss s + 1),
            creator := creator, tossAmount := parsed.amount,
            status := .CREATED, participants := [], participantOptions := [],
            walletAddress := addr, createdAt := now, tossResult := "",
            paymentSuccess := false, tossTopic := some parsed.topic,
            tossOptions := some parsed.options }) ∧
      getToss s1 (Nat.repr (getLastIdToss s + 1)) =
        some
          { id := Nat.repr (getLastIdToss s + 1), creator := creator,
            tossAmount := parsed.amount, status := .CREATED,
            participants := [], participantOptions := [],
            walletAddress := addr, createdAt := now, tossResult := "",
            paymentSuccess := false, tossTopic := some parsed.topic,
            tossOptions := some parsed.options } ∧
      storageGetWallet s1 (Nat.repr (getLastIdToss s + 1)) =
        some ⟨addr, addr, Nat.repr (getLastIdToss s + 1)⟩ := by
  unfold createGameWithDetails
  rw [createGame_ok env s creator parsed.amount now addr hwc (hwr _)]
  dsimp only
  refine ⟨_, rfl, ?_, ?_⟩
  · exact getToss_saveToss_self env _ _ (hwr _)
  · exact (storedWallet_saveToss env _ _ _).trans
      ((storedWallet_saveToss env _ _ _).trans
        (storedWallet_saveWallet_self env s _ _ (hwr _)))

theorem addPlayerToGame_ok (env : Env) (s : TMState) (tid p c : String)
    (t : CoinTossGame)
    (hget : getToss s tid = some t)
    (hst : t.status = .CREATED ∨ t.status = .WAITING_FOR_PLAYER)
    (hp : p ∉ t.participants)
    (hinv : invalidOption t c = false) :
    addPlayerToGame env s tid p c true =
      (updateToss env s (addedToss t p c), .ok (addedToss t p c)) := by
  have h1 : ¬(t.status ≠ .CREATED ∧ t.status ≠ .WAITING_FOR_PLAYER) := by
    rcases hst with h | h <;> simp [h]
  simp only [addPlayerToGame, hget]
  rw [if_neg h1, if_neg hp, if_neg (by simp : ¬(true = false)),
    if_neg (by simp [hinv] : ¬(invalidOption t c = true))]

theorem addPlayerToGame_ok_inv {env : Env} {s : TMState}
    {tid p c : String} {hpd : Bool} {s' : TMState} {t' : CoinTossGame}
    (h : addPlayerToGame env s tid p c hpd = (s', .ok t')) :
    ∃ t, getToss s tid = some t ∧
      (t.status = .CREATED ∨ t.status = .WAITING_FOR_PLAYER) ∧
      p ∉ t.participants ∧ hpd = true ∧ invalidOption t c = false ∧
      t' = addedToss t p c ∧
      s' = updateToss env s (addedToss t p c) := by
  unfold addPlayerToGame at h
  cases hget : getToss s tid with
  | none => rw [hget] at h; simp at h
  | some t =>
    rw [hget] at h
    dsimp only at h
    split at h
    case isTrue => simp at h
    case isFalse h1 =>
      split at h
      case isTrue => simp at h
      case isFalse h2 =>
        split at h
        case isTrue => simp at h
        case isFalse h3 =>
          split at h
          case isTrue => simp at h
          case isFalse h4 =>
            simp only [Prod.mk.injEq, Except.ok.injEq] at h
            refine ⟨t, rfl, ?_, h2, ?_, ?_, h.2.symm, h.1.symm⟩
            · rcases not_and_or.mp h1 with h' | h'
              · exact Or.inl (not_not.mp h')
              · exact Or.inr (not_not.mp h')
            · cases hpd with
              | false => exact absurd rfl h3
              | true => rfl
            · simpa using h4

theorem executeSetInProgress_ok (env : Env) (s : TMState) (tid : String)
    (t : CoinTossGame)
    (hget : getToss s tid = some t)
    (hst : t.status = .WAITING_FOR_PLAYER)
    (h2 : 2 ≤ t.participants.length)
    (h3 : t.participantOptions.length ≠ 0)
    (h4 : 2 ≤ (optionsOf t).length) :
    executeSetInProgress env s tid =
      (updateToss env s (inProgressToss t), .ok (inProgressToss t)) := by
  simp only [executeSetInProgress, hget]
  rw [if_neg (by simp [hst]), if_neg (by omega), if_neg h3,
    if_neg (by omega)]

theorem executeSetInProgress_ok_inv {env : Env} {s : TMState}
    {tid : String} {s' : TMState} {t' : CoinTossGame}
    (h : executeSetInProgress env s tid = (s', .ok t')) :
    ∃ t, getToss s tid = some t ∧
      t.status = .WAITING_FOR_PLAYER ∧
      2 ≤ t.participants.length ∧
      t.participantOptions.length ≠ 0 ∧
      2 ≤ (optionsOf t).length ∧
      t' = inProgressToss t ∧
      s' = updateToss env s (inProgressToss t) := by
  unfold executeSetInProgress at h
  cases hget : getToss s tid with
  | none => rw [hget] at h; simp at h
  | some t =>
    rw [hget] at h
    dsimp only at h
    split at h
    case isTrue => simp at h
    case isFalse h1 =>
      split at h
      case isTrue => simp at h
      case isFalse h2 =>
        split at h
        case isTrue => simp at h
        case isFalse h3 =>
          split at h
          case isTrue => simp at h
          case isFalse h4 =>
            simp only [Prod.mk.injEq, Except.ok.injEq] at h
            exact ⟨t, rfl, not_not.mp h1, by omega, h3, by omega,
              h.2.symm, h.1.symm⟩

end CoinToss

namespace CoinToss

theorem finishSuccess_ok (env : Env) (s : TMState) (toss1 : CoinTossGame)
    (tw : AgentWalletData) :
    ∃ s' t', finishSuccess env s toss1 tw = (s', .ok t') :=
  ⟨_, _, rfl⟩

theorem finishSuccess_props (env : Env) (s : TMState)
    (toss1 : CoinTossGame) (tw : AgentWalletData) (s' : TMState)
    (t' : CoinTossGame)
    (h : finishSuccess env s toss1 tw = (s', .ok t')) :
    ∃ sd succ link,
      distributePrizes env tw.inboxId
        (prizePerWinner toss1 (winnersFor toss1 toss1.tossResult))
        (winnersFor toss1 toss1.tossResult) s [] toss1.transactionLink =
        (sd, succ, link) ∧
      t'.status = .COMPLETED ∧ t'.id = toss1.id ∧
      t'.participants = toss1.participants ∧
      t'.participantOptions = toss1.participantOptions ∧
      t'.tossAmount = toss1.tossAmount ∧
      t'.tossOptions = toss1.tossOptions ∧
      t'.tossResult = toss1.tossResult ∧
      t'.paymentSuccess =
        (succ.length == (winnersFor toss1 toss1.tossResult).length) ∧
      t'.transactionLink = link ∧
      s' = updateToss env sd t' := by
  unfold finishSuccess at h
  dsimp only at h
  rcases hd : distributePrizes env tw.inboxId
      (prizePerWinner toss1 (winnersFor toss1 toss1.tossResult))
      (winnersFor toss1 toss1.tossResult) s [] toss1.transactionLink with
    ⟨sd, rest⟩
  rcases rest with ⟨succ, link⟩
  rw [hd] at h
  dsimp only at h
  simp only [Prod.mk.injEq, Except.ok.injEq] at h
  obtain ⟨hs, ht⟩ := h
  subst ht
  exact ⟨sd, succ, link, rfl, rfl, rfl, rfl, rfl, rfl, rfl, rfl, rfl, rfl,
    hs.symm⟩

theorem executeFinish_ok_inv {env : Env} {s : TMState} {t : CoinTossGame}
    {w : String} {s' : TMState} {t' : CoinTossGame}
    (h : executeFinish env s t w = (s', .ok t')) :
    ∃ matching s1 tw, matchingOptionFor t w = some matching ∧
      winnersFor { t with tossResult := matching } matching ≠ [] ∧
      getWallet env s t.id = (s1, .ok tw) ∧
      finishSuccess env s1 { t with tossResult := matching } tw =
        (s', .ok t') := by
  unfold executeFinish at h
  cases hm : matchingOptionFor t w with
  | none => rw [hm] at h; simp at h
  | some matching =>
    rw [hm] at h
    dsimp only at h
    split at h
    case isTrue => simp at h
    case isFalse h1 =>
      rcases hw : getWallet env s t.id with ⟨s1, res⟩
      rw [hw] at h
      cases res with
      | error e => simp at h
      | ok tw =>
        exact ⟨matching, s1, tw, rfl,
          fun hn => h1 (by rw [hn]; rfl), rfl, h⟩

theorem executeCoinToss_ok_inv {env : Env} {s : TMState} {tid w : String}
    {s' : TMState} {t' : CoinTossGame}
    (h : executeCoinToss env s tid w = (s', .ok t')) :
    ∃ t matching s1 tw,
      getToss s tid = some t ∧
      t.status = .WAITING_FOR_PLAYER ∧
      2 ≤ t.participants.length ∧
      matchingOptionFor (inProgressToss t) w = some matching ∧
      winnersFor { inProgressToss t with tossResult := matching }
        matching ≠ [] ∧
      getWallet env (updateToss env s (inProgressToss t))
        (inProgressToss t).id = (s1, .ok tw) ∧
      finishSuccess env s1 { inProgressToss t with tossResult := matching }
        tw = (s', .ok t') := by
  unfold executeCoinToss at h
  rcases hsp : executeSetInProgress env s tid with ⟨smid, res⟩
  rw [hsp] at h
  cases res with
  | error e => simp at h
  | ok tmid =>
    obtain ⟨t, hget, hst, h2, _, _, htm, hsm⟩ :=
      executeSetInProgress_ok_inv hsp
    subst htm
    subst hsm
    obtain ⟨matching, s1, tw, hm, hne, hw, hfin⟩ := executeFinish_ok_inv h
    exact ⟨t, matching, s1, tw, hget, hst, h2, hm, hne, hw, hfin⟩

end CoinToss

namespace CoinToss

theorem executeCoinToss_ok (env : Env) (s : TMState) (tid w : String)
    (t : CoinTossGame) (matching : String) (tw : AgentWalletData)
    (hget : getToss s tid = some t) (hid : t.id = tid)
    (hst : t.status = .WAITING_FOR_PLAYER)
    (h2 : 2 ≤ t.participants.length)
    (h3 : t.participantOptions.length ≠ 0)
    (h4 : 2 ≤ (optionsOf t).length)
    (hm : matchingOptionFor t w = some matching)
    (hne : winnersFor t matching ≠ [])
    (htw : storageGetWallet s tid = some tw) :
    ∃ s4 t3 sd succ link,
      executeCoinToss env s tid w = (s4, .ok t3) ∧
      distributePrizes env tw.inboxId
        (prizePerWinner t (winnersFor t matching)) (winnersFor t matching)
        (updateToss env s (inProgressToss t)) [] t.transactionLink =
        (sd, succ, link) ∧
      s4 = updateToss env sd t3 ∧
      t3.id = t.id ∧ t3.status = .COMPLETED ∧
      t3.tossAmount = t.tossAmount ∧ t3.tossOptions = t.tossOptions ∧
      t3.participants = t.participants ∧
      t3.participantOptions = t.participantOptions ∧
      t3.tossResult = matching ∧
      t3.paymentSuccess =
        (succ.length == (winnersFor t matching).length) := by
  have hw : getWallet env (updateToss env s (inProgressToss t)) t.id =
      (updateToss env s (inProgressToss t), .ok tw) := by
    apply getWallet_of_stored
    rw [hid]
    exact (storedWallet_saveToss env s (inProgressToss t) tid).trans htw
  obtain ⟨s4, t3, hfin⟩ := finishSuccess_ok env
    (updateToss env s (inProgressToss t))
    { inProgressToss t with tossResult := matching } tw
  have hrun : executeCoinToss env s tid w = (s4, .ok t3) := by
    unfold executeCoinToss
    rw [executeSetInProgress_ok env s tid t hget hst h2 h3 h4]
    dsimp only
    unfold executeFinish
    rw [show matchingOptionFor (inProgressToss t) w = some matching
      from hm]
    dsimp only
    rw [if_neg (show ¬ (winnersFor { inProgressToss t with
        tossResult := matching } matching).length = 0
      from fun hl => hne (List.length_eq_zero.mp hl))]
    rw [show getWallet env (updateToss env s (inProgressToss t))
        ({ inProgressToss t with tossResult := matching} :
          CoinTossGame).id =
      (updateToss env s (inProgressToss t), .ok tw) from hw]
    dsimp only
    exact hfin
  obtain ⟨sd, succ, link, hd, hp1, hp2, hp3, hp4, hp5, hp6, hp7, hp8,
    hp9, hp10⟩ := finishSuccess_props env
    (updateToss env s (inProgressToss t))
    { inProgressToss t with tossResult := matching } tw s4 t3 hfin
  exact ⟨s4, t3, sd, succ, link, hrun, hd, hp10, hp2, hp1, hp5, hp6,
    hp3, hp4, hp7, hp8⟩

end CoinToss
namespace CoinToss

theorem createGameWithDetails_eval (env : Env) (s : TMState)
    (creator : String) (parsed : ParsedToss) (now : Nat) (addr : String)
    (hwr : ∀ n, env.writeOk n = true)
    (hwc : env.walletCreate (Nat.repr (getLastIdToss s + 1)) = .ok addr) :
    ∃ t0 s1,
      createGameWithDetails env s creator parsed now = (s1, .ok t0) ∧
      t0.id = Nat.repr (getLastIdToss s + 1) ∧
      t0.tossAmount = parsed.amount ∧
      t0.status = .CREATED ∧ t0.participants = [] ∧
      t0.participantOptions = [] ∧ t0.tossTopic = some parsed.topic ∧
      t0.tossOptions = some parsed.options ∧
      getToss s1 t0.id = some t0 ∧
      storageGetWallet s1 t0.id =
        some ⟨addr, addr, Nat.repr (getLastIdToss s + 1)⟩ := by
  obtain ⟨s1, heq, hget, hwal⟩ :=
    createGameWithDetails_ok env s creator parsed now addr hwr hwc
  exact ⟨_, s1, heq, rfl, rfl, rfl, rfl, rfl, rfl, rfl, hget, hwal⟩

end CoinToss

namespace Claims

open CoinToss
open GroupTossListener (strToLower)

/-- C1: under an environment whose file writes succeed and whose wallet
creation yields an address, a toss created (via the prompt path of
`createGameFromPrompt`) with amount `"5"` and options `["yes","no"]` is
retrievable afterwards with identical `tossAmount`/`tossOptions` at
every step, and under the documented command sequence (create, two paid
`addPlayerToGame` calls, then `executeCoinToss`) the stored status moves
exactly through `CREATED`, `WAITING_FOR_PLAYER`, `WAITING_FOR_PLAYER`,
`IN_PROGRESS`, `COMPLETED`; moreover (last two conjuncts, for every
environment) a successful `addPlayerToGame` always yields
`WAITING_FOR_PLAYER` from `CREATED`/`WAITING_FOR_PLAYER`, and a
successful `executeCoinToss` always yields `COMPLETED` from
`WAITING_FOR_PLAYER` with at least two players — so no state is ever
skipped. -/
theorem c1_toss_roundtrip_state_machine
    (env : Env) (s0 : TMState) (creator topic p1 p2 c1 c2 w : String)
    (now : Nat) (addr : String)
    (hwr : ∀ n, env.writeOk n = true)
    (hwc : env.walletCreate (Nat.repr (getLastIdToss s0 + 1)) = .ok addr)
    (hp : p1 ≠ p2)
    (hc1 : strToLower c1 = "yes" ∨ strToLower c1 = "no")
    (hc2 : strToLower c2 = "yes" ∨ strToLower c2 = "no")
    (hw : strToLower w = "yes" ∨ strToLower w = "no")
    (hwin : strToLower c1 = strToLower w ∨ strToLower c2 = strToLower w) :
    (∃ t0 s1 t1 s2 t2 s3 tmid smid t3 s4,
      createGameWithDetails env s0 creator ⟨topic, ["yes", "no"], "5"⟩
        now = (s1, .ok t0) ∧
      addPlayerToGame env s1 t0.id p1 c1 true = (s2, .ok t1) ∧
      addPlayerToGame env s2 t0.id p2 c2 true = (s3, .ok t2) ∧
      executeSetInProgress env s3 t0.id = (smid, .ok tmid) ∧
      executeCoinToss env s3 t0.id w = (s4, .ok t3) ∧
      getToss s1 t0.id = some t0 ∧
      getToss s2 t0.id = some t1 ∧
      getToss s3 t0.id = some t2 ∧
      getToss smid t0.id = some tmid ∧
      getToss s4 t0.id = some t3 ∧
      (t0.tossAmount = "5" ∧ t1.tossAmount = "5" ∧ t2.tossAmount = "5" ∧
        tmid.tossAmount = "5" ∧ t3.tossAmount = "5") ∧
      (t0.tossOptions = some ["yes", "no"] ∧
        t1.tossOptions = some ["yes", "no"] ∧
        t2.tossOptions = some ["yes", "no"] ∧
        tmid.tossOptions = some ["yes", "no"] ∧
        t3.tossOptions = some ["yes", "no"]) ∧
      [t0.status, t1.status, t2.status, tmid.status, t3.status] =
        [.CREATED, .WAITING_FOR_PLAYER, .WAITING_FOR_PLAYER,
         .IN_PROGRESS, .COMPLETED]) ∧
    (∀ (env2 : Env) s tid p c hpd s' t',
      addPlayerToGame env2 s tid p c hpd = (s', .ok t') →
      t'.status = .WAITING_FOR_PLAYER ∧
      ∃ t, getToss s tid = some t ∧
        (t.status = .CREATED ∨ t.status = .WAITING_FOR_PLAYER)) ∧
    (∀ (env2 : Env) s tid w' s' t',
      executeCoinToss env2 s tid w' = (s', .ok t') →
      t'.status = .COMPLETED ∧
      ∃ t, getToss s tid = some t ∧
        t.status = .WAITING_FOR_PLAYER ∧ 2 ≤ t.participants.length) := by
  refine ⟨?_, ?_, ?_⟩
  · obtain ⟨t0, s1, hcreate, hid, ham, hst0, hpart0, hopt0, htop0, hopts0,
      hget1, hwal1⟩ :=
      createGameWithDetails_eval env s0 creator ⟨topic, ["yes", "no"], "5"⟩
        now addr hwr hwc
    have hmap : (["yes", "no"].map strToLower) = ["yes", "no"] := by decide
    have hmem1 : strToLower c1 ∈ ["yes", "no"].map strToLower := by
      rw [hmap]; rcases hc1 with h | h <;> simp [h]
    have hmem2 : strToLower c2 ∈ ["yes", "no"].map strToLower := by
      rw [hmap]; rcases hc2 with h | h <;> simp [h]
    have hinv1 : invalidOption t0 c1 = false :=
      invalidOption_false_of_mem t0 c1 _ hopts0 hmem1
    have hnm1 : p1 ∉ t0.participants := by rw [hpart0]; simp
    have hadd1 := addPlayerToGame_ok env s1 t0.id p1 c1 t0 hget1
      (Or.inl hst0) hnm1 hinv1
    have ht1part : (addedToss t0 p1 c1).participants = [p1] := by
      rw [show (addedToss t0 p1 c1).participants =
        t0.participants ++ [p1] from rfl, hpart0]
      rfl
    have ht1opts : (addedToss t0 p1 c1).tossOptions =
        some ["yes", "no"] := by
      rw [show (addedToss t0 p1 c1).tossOptions = t0.tossOptions from rfl,
        hopts0]
    have ht1id : (addedToss t0 p1 c1).id = t0.id := rfl
    have hget2 : getToss (updateToss env s1 (addedToss t0 p1 c1)) t0.id =
        some (addedToss t0 p1 c1) := by
      have h := getToss_saveToss_self env s1 (addedToss t0 p1 c1) (hwr _)
      rw [ht1id] at h
      exact h
    have hinv2 : invalidOption (addedToss t0 p1 c1) c2 = false :=
      invalidOption_false_of_mem _ c2 _ ht1opts hmem2
    have hnm2 : p2 ∉ (addedToss t0 p1 c1).participants := by
      rw [ht1part]
      simp only [List.mem_singleton]
      exact fun h => hp h.symm
    have hadd2 := addPlayerToGame_ok env
      (updateToss env s1 (addedToss t0 p1 c1)) t0.id p2 c2
      (addedToss t0 p1 c1) hget2 (Or.inr (addedToss_status t0 p1 c1))
      hnm2 hinv2
    have ht2part : (addedToss (addedToss t0 p1 c1) p2 c2).participants =
        [p1, p2] := by
      rw [show (addedToss (addedToss t0 p1 c1) p2 c2).participants =
        (addedToss t0 p1 c1).participants ++ [p2] from rfl, ht1part]
      rfl
    have ht2po : (addedToss (addedToss t0 p1 c1) p2
        c2).participantOptions = [⟨p1, c1⟩, ⟨p2, c2⟩] := by
      rw [show (addedToss (addedToss t0 p1 c1) p2 c2).participantOptions =
        (t0.participantOptions ++ [⟨p1, c1⟩]) ++ [⟨p2, c2⟩] from rfl,
        hopt0]
      rfl
    have ht2opts : (addedToss (addedToss t0 p1 c1) p2 c2).tossOptions =
        some ["yes", "no"] := ht1opts
    have ht2id : (addedToss (addedToss t0 p1 c1) p2 c2).id = t0.id := rfl
    have hget3 : getToss (updateToss env
        (updateToss env s1 (addedToss t0 p1 c1))
        (addedToss (addedToss t0 p1 c1) p2 c2)) t0.id =
        some (addedToss (addedToss t0 p1 c1) p2 c2) := by
      have h := getToss_saveToss_self env
        (updateToss env s1 (addedToss t0 p1 c1))
        (addedToss (addedToss t0 p1 c1) p2 c2) (hwr _)
      rw [ht2id] at h
      exact h
    have hsetIP := executeSetInProgress_ok env
      (updateToss env (updateToss env s1 (addedToss t0 p1 c1))
        (addedToss (addedToss t0 p1 c1) p2 c2)) t0.id
      (addedToss (addedToss t0 p1 c1) p2 c2) hget3
      (addedToss_status _ p2 c2)
      (by rw [ht2part]; simp)
      (by rw [ht2po]; simp)
      (by rw [optionsOf_of_some _ _ ht2opts (by simp)]; simp)
    have hgetmid : getToss (updateToss env
        (updateToss env (updateToss env s1 (addedToss t0 p1 c1))
          (addedToss (addedToss t0 p1 c1) p2 c2))
        (inProgressToss (addedToss (addedToss t0 p1 c1) p2 c2))) t0.id =
        some (inProgressToss (addedToss (addedToss t0 p1 c1) p2 c2)) := by
      have h := getToss_saveToss_self env
        (updateToss env (updateToss env s1 (addedToss t0 p1 c1))
          (addedToss (addedToss t0 p1 c1) p2 c2))
        (inProgressToss (addedToss (addedToss t0 p1 c1) p2 c2)) (hwr _)
      rw [show (inProgressToss
        (addedToss (addedToss t0 p1 c1) p2 c2)).id = t0.id from ht2id] at h
      exact h
    have hwal3 : storageGetWallet (updateToss env
        (updateToss env s1 (addedToss t0 p1 c1))
        (addedToss (addedToss t0 p1 c1) p2 c2)) t0.id =
        some ⟨addr, addr, Nat.repr (getLastIdToss s0 + 1)⟩ :=
      (storedWallet_saveToss env _ _ _).trans
        ((storedWallet_saveToss env _ _ _).trans hwal1)
    have hm := matchingOptionFor_yes_no
      (addedToss (addedToss t0 p1 c1) p2 c2) w ht2opts hw
    have hcm := strToLower_matching_eq w hw
    have hne : winnersFor (addedToss (addedToss t0 p1 c1) p2 c2)
        (if strToLower w = "yes" then "yes" else "no") ≠ [] := by
      rcases hwin with hww | hww
      · refine winnersFor_ne_nil_of_mem _ _ ⟨p1, c1⟩ ?_ ?_
        · rw [ht2po]; simp
        · show strToLower c1 = _
          rw [hcm]; exact hww
      · refine winnersFor_ne_nil_of_mem _ _ ⟨p2, c2⟩ ?_ ?_
        · rw [ht2po]; simp
        · show strToLower c2 = _
          rw [hcm]; exact hww
    obtain ⟨s4, t3, sd, succ, link, hexec, hd, hs4, hid3, hst3, hamt3,
      hopt3, hpart3, hpo3, hres3, hps3⟩ :=
      executeCoinToss_ok env
        (updateToss env (updateToss env s1 (addedToss t0 p1 c1))
          (addedToss (addedToss t0 p1 c1) p2 c2)) t0.id w
        (addedToss (addedToss t0 p1 c1) p2 c2)
        (if strToLower w = "yes" then "yes" else "no")
        ⟨addr, addr, Nat.repr (getLastIdToss s0 + 1)⟩
        hget3 ht2id (addedToss_status _ p2 c2)
        (by rw [ht2part]; simp) (by rw [ht2po]; simp)
        (by rw [optionsOf_of_some _ _ ht2opts (by simp)]; simp)
        hm hne hwal3
    have hget4 : getToss s4 t0.id = some t3 := by
      rw [hs4]
      have h := getToss_saveToss_self env sd t3 (hwr _)
      rw [show t3.id = t0.id from hid3.trans ht2id] at h
      exact h
    refine ⟨t0, s1, addedToss t0 p1 c1, _,
      addedToss (addedToss t0 p1 c1) p2 c2, _,
      inProgressToss (addedToss (addedToss t0 p1 c1) p2 c2), _, t3, s4,
      hcreate, hadd1, hadd2, hsetIP, hexec,
      hget1, hget2, hget3, hgetmid, hget4,
      ⟨ham, ham, ham, ham, hamt3.trans ham⟩,
      ⟨hopts0, ht1opts, ht2opts, ht2opts, hopt3.trans ht2opts⟩,
      ?_⟩
    rw [hst0, addedToss_status, addedToss_status, hst3]
    rfl
  · intro env2 s tid p c hpd s' t' h
    obtain ⟨t, hget, hsts, -, -, -, ht', -⟩ := addPlayerToGame_ok_inv h
    refine ⟨?_, t, hget, hsts⟩
    rw [ht']
    exact addedToss_status t p c
  · intro env2 s tid w' s' t' h
    obtain ⟨t, matching, s1x, twx, hget, hst, h2, -, -, -, hfin⟩ :=
      executeCoinToss_ok_inv h
    obtain ⟨sd, succ, link, -, hstat, -⟩ :=
      finishSuccess_props _ _ _ _ _ _ hfin
    exact ⟨hstat, t, hget, hst, h2⟩

end Claims

namespace Claims

/-- Witness for C1: the documented sequence run concretely from
`Witness.wInit` under the benign environment `Witness.wEnv` — creator
"creator", topic "rain tomorrow", players "p1" (choosing yes) and "p2"
(choosing no), amount "5", winning option yes. -/
theorem c1_toss_roundtrip_state_machine_witness :
    (∀ n, Witness.wEnv.writeOk n = true) ∧
    Witness.wEnv.walletCreate
      (Nat.repr (CoinToss.getLastIdToss Witness.wInit + 1)) =
      .ok Witness.addrToss ∧
    (("p1" : String) ≠ "p2") ∧
    (GroupTossListener.strToLower "yes" = "yes" ∨
      GroupTossListener.strToLower "yes" = "no") ∧
    (GroupTossListener.strToLower "no" = "yes" ∨
      GroupTossListener.strToLower "no" = "no") ∧
    (GroupTossListener.strToLower "yes" = GroupTossListener.strToLower "yes" ∨
      GroupTossListener.strToLower "no" = GroupTossListener.strToLower "yes") ∧
    ((∃ t0 s1 t1 s2 t2 s3 tmid smid t3 s4,
      CoinToss.createGameWithDetails Witness.wEnv Witness.wInit "creator"
        ⟨"rain tomorrow", ["yes", "no"], "5"⟩ 0 = (s1, .ok t0) ∧
      CoinToss.addPlayerToGame Witness.wEnv s1 t0.id "p1" "yes" true =
        (s2, .ok t1) ∧
      CoinToss.addPlayerToGame Witness.wEnv s2 t0.id "p2" "no" true =
        (s3, .ok t2) ∧
      CoinToss.executeSetInProgress Witness.wEnv s3 t0.id =
        (smid, .ok tmid) ∧
      CoinToss.executeCoinToss Witness.wEnv s3 t0.id "yes" =
        (s4, .ok t3) ∧
      CoinToss.getToss s1 t0.id = some t0 ∧
      CoinToss.getToss s2 t0.id = some t1 ∧
      CoinToss.getToss s3 t0.id = some t2 ∧
      CoinToss.getToss smid t0.id = some tmid ∧
      CoinToss.getToss s4 t0.id = some t3 ∧
      (t0.tossAmount = "5" ∧ t1.tossAmount = "5" ∧ t2.tossAmount = "5" ∧
        tmid.tossAmount = "5" ∧ t3.tossAmount = "5") ∧
      (t0.tossOptions = some ["yes", "no"] ∧
        t1.tossOptions = some ["yes", "no"] ∧
        t2.tossOptions = some ["yes", "no"] ∧
        tmid.tossOptions = some ["yes", "no"] ∧
        t3.tossOptions = some ["yes", "no"]) ∧
      [t0.status, t1.status, t2.status, tmid.status, t3.status] =
        [.CREATED, .WAITING_FOR_PLAYER, .WAITING_FOR_PLAYER,
         .IN_PROGRESS, .COMPLETED]) ∧
    (∀ (env2 : CoinToss.Env) s tid p c hpd s' t',
      CoinToss.addPlayerToGame env2 s tid p c hpd = (s', .ok t') →
      t'.status = .WAITING_FOR_PLAYER ∧
      ∃ t, CoinToss.getToss s tid = some t ∧
        (t.status = .CREATED ∨ t.status = .WAITING_FOR_PLAYER)) ∧
    (∀ (env2 : CoinToss.Env) s tid w' s' t',
      CoinToss.executeCoinToss env2 s tid w' = (s', .ok t') →
      t'.status = .COMPLETED ∧
      ∃ t, CoinToss.getToss s tid = some t ∧
        t.status = .WAITING_FOR_PLAYER ∧ 2 ≤ t.participants.length)) :=
  ⟨fun _ => rfl, rfl, by decide, Or.inl (by decide), Or.inr (by decide),
    Or.inl (by decide),
    c1_toss_roundtrip_state_machine Witness.wEnv Witness.wInit "creator"
      "rain tomorrow" "p1" "p2" "yes" "no" "yes" 0 Witness.addrToss
      (fun _ => rfl) rfl (by decide) (Or.inl (by decide))
      (Or.inr (by decide)) (Or.inl (by decide)) (Or.inl (by decide))⟩

end Claims
namespace CoinToss

theorem storeInv_of_tossFiles_eq {s s' : TMState}
    (h : s'.storage.tossFiles = s.storage.tossFiles) (hs : storeInv s) :
    storeInv s' := by
  intro kv hkv
  exact hs kv (by rw [← h]; exact hkv)

theorem getToss_inv {s : TMState} {k : String} {t : CoinTossGame}
    (hs : storeInv s) (h : getToss s k = some t) : listInv t := by
  obtain ⟨kv, hkv, he⟩ := getFile_mem _ _ _ h
  rw [← he]
  exact hs kv hkv

theorem storeInv_saveToss (env : Env) (s : TMState) (t : CoinTossGame)
    (hs : storeInv s) (ht : listInv t) : storeInv (saveToss env s t) := by
  intro kv hkv
  unfold saveToss at hkv
  split at hkv
  · rcases mem_putFile _ _ _ _ hkv with h | h
    · exact hs kv h
    · rw [h]; exact ht
  · exact hs kv hkv

theorem storeInv_saveWallet (env : Env) (s : TMState) (k : String)
    (w : AgentWalletData) (hs : storeInv s) :
    storeInv (saveWallet env s k w) :=
  storeInv_of_tossFiles_eq (saveWallet_tossFiles env s k w) hs

theorem createWallet_tossFiles (env : Env) (s : TMState) (k : String) :
    (createWallet env s k).1.storage.tossFiles = s.storage.tossFiles := by
  unfold createWallet
  cases env.walletCreate k with
  | error e => rfl
  | ok addr => exact saveWallet_tossFiles env s k _

theorem storeInv_distributePrizes (env : Env) (twid : String) (prize : ℚ)
    (ws : List Participant) (sp : TMState) (succ : List String)
    (link : Option String) (hs : storeInv sp) :
    storeInv (distributePrizes env twid prize ws sp succ link).1 :=
  storeInv_of_tossFiles_eq
    (distributePrizes_frame env twid prize ws sp succ link).1 hs

theorem createGame_empty_lists {env : Env} {s : TMState} {c a : String}
    {now : Nat} {s' : TMState} {t' : CoinTossGame}
    (hw : env.writeOk (s.writes + 1) = true)
    (h : createGame env s c a now = (s', .ok t')) :
    t'.participants = [] ∧ t'.participantOptions = [] := by
  cases hc : env.walletCreate (Nat.repr (getLastIdToss s + 1)) with
  | error e =>
    unfold createGame at h
    dsimp only at h
    unfold createWallet at h
    rw [hc] at h
    dsimp only at h
    simp at h
  | ok addr =>
    rw [createGame_ok env s c a now addr hc hw] at h
    simp only [Prod.mk.injEq, Except.ok.injEq] at h
    rw [← h.2]
    exact ⟨rfl, rfl⟩

theorem createGameWithDetails_empty_lists {env : Env} {s : TMState}
    {c : String} {parsed : ParsedToss} {now : Nat} {s' : TMState}
    {t' : CoinTossGame}
    (hw : env.writeOk (s.writes + 1) = true)
    (h : createGameWithDetails env s c parsed now = (s', .ok t')) :
    t'.participants = [] ∧ t'.participantOptions = [] := by
  unfold createGameWithDetails at h
  rcases hcg : createGame env s c parsed.amount now with ⟨s1, res⟩
  rw [hcg] at h
  cases res with
  | error e => simp at h
  | ok toss =>
    dsimp only at h
    simp only [Prod.mk.injEq, Except.ok.injEq] at h
    obtain ⟨he1, he2⟩ := createGame_empty_lists hw hcg
    rw [← h.2]
    exact ⟨he1, he2⟩

theorem createGame_ok_listInv {env : Env} {s : TMState} {c a : String}
    {now : Nat} {s' : TMState} {t' : CoinTossGame} (hs : storeInv s)
    (h : createGame env s c a now = (s', .ok t')) : listInv t' := by
  unfold createGame at h
  dsimp only at h
  cases hc : env.walletCreate (Nat.repr (getLastIdToss s + 1)) with
  | error e =>
    unfold createWallet at h
    rw [hc] at h
    dsimp only at h
    simp at h
  | ok addr =>
    unfold createWallet at h
    rw [hc] at h
    dsimp only at h
    simp only [Prod.mk.injEq, Except.ok.injEq] at h
    rw [← h.2]
    cases hg : getToss (saveToss env
        (saveWallet env s (Nat.repr (getLastIdToss s + 1))
          ⟨addr, addr, Nat.repr (getLastIdToss s + 1)⟩)
        { id := Nat.repr (getLastIdToss s + 1), creator := c,
          tossAmount := a, status := .CREATED, participants := [],
          participantOptions := [], walletAddress := addr,
          createdAt := now, tossResult := "", paymentSuccess := false })
        (Nat.repr (getLastIdToss s + 1)) with
    | none => exact ⟨rfl, List.nodup_nil⟩
    | some tstored =>
      have hs2 : storeInv (saveToss env
          (saveWallet env s (Nat.repr (getLastIdToss s + 1))
            ⟨addr, addr, Nat.repr (getLastIdToss s + 1)⟩)
          { id := Nat.repr (getLastIdToss s + 1), creator := c,
            tossAmount := a, status := .CREATED, participants := [],
            participantOptions := [], walletAddress := addr,
            createdAt := now, tossResult := "", paymentSuccess := false }) :=
        storeInv_saveToss env _ _
          (storeInv_saveWallet env s _ _ hs) ⟨rfl, List.nodup_nil⟩
      exact getToss_inv hs2 hg

theorem storeInv_createGame (env : Env) (s : TMState) (c a : String)
    (now : Nat) (hs : storeInv s) :
    storeInv (createGame env s c a now).1 := by
  unfold createGame
  dsimp only
  rcases hcw : createWallet env s (Nat.repr (getLastIdToss s + 1))
    with ⟨s1, res⟩
  have hs1 : storeInv s1 := by
    refine storeInv_of_tossFiles_eq ?_ hs
    have h := createWallet_tossFiles env s (Nat.repr (getLastIdToss s + 1))
    rw [hcw] at h
    exact h
  cases res with
  | error e => exact hs1
  | ok tw =>
    dsimp only
    exact storeInv_saveToss env s1 _ hs1 ⟨rfl, List.nodup_nil⟩

theorem storeInv_createGameWithDetails (env : Env) (s : TMState)
    (c : String) (parsed : ParsedToss) (now : Nat) (hs : storeInv s) :
    storeInv (createGameWithDetails env s c parsed now).1 := by
  unfold createGameWithDetails
  rcases hcg : createGame env s c parsed.amount now with ⟨s1, res⟩
  have hs1 : storeInv s1 := by
    have h := storeInv_createGame env s c parsed.amount now hs
    rw [hcg] at h
    exact h
  cases res with
  | error e => exact hs1
  | ok toss =>
    dsimp only
    have hli := createGame_ok_listInv hs hcg
    exact storeInv_saveToss env s1 _ hs1 hli

theorem storeInv_addPlayerToGame (env : Env) (s : TMState)
    (tid p c : String) (hpd : Bool) (hs : storeInv s) :
    storeInv (addPlayerToGame env s tid p c hpd).1 := by
  unfold addPlayerToGame
  cases hg : getToss s tid with
  | none => exact hs
  | some t =>
    dsimp only
    split
    case isTrue => exact hs
    case isFalse h1 =>
      split
      case isTrue => exact hs
      case isFalse h2 =>
        split
        case isTrue => exact hs
        case isFalse h3 =>
          split
          case isTrue => exact hs
          case isFalse h4 =>
            refine storeInv_saveToss env s _ hs ?_
            obtain ⟨hlen, hnd⟩ := getToss_inv hs hg
            constructor
            · show (t.participants ++ [p]).length =
                (t.participantOptions ++ [(⟨p, c⟩ : Participant)]).length
              simp [hlen]
            · show (t.participants ++ [p]).Nodup
              exact hnd.append (List.nodup_singleton p)
                (List.disjoint_singleton.2 h2)

theorem storeInv_cancelGame (env : Env) (s : TMState) (tid : String)
    (hs : storeInv s) : storeInv (cancelGame env s tid).1 := by
  unfold cancelGame
  cases hg : getToss s tid with
  | none => exact hs
  | some t =>
    dsimp only
    split
    · exact hs
    · have hli := getToss_inv hs hg
      exact storeInv_saveToss env s _ hs hli

theorem storeInv_executeSetInProgress (env : Env) (s : TMState)
    (tid : String) (hs : storeInv s) :
    storeInv (executeSetInProgress env s tid).1 := by
  unfold executeSetInProgress
  cases hg : getToss s tid with
  | none => exact hs
  | some t =>
    dsimp only
    split
    case isTrue => exact hs
    case isFalse h1 =>
      split
      case isTrue => exact hs
      case isFalse h2 =>
        split
        case isTrue => exact hs
        case isFalse h3 =>
          split
          case isTrue => exact hs
          case isFalse h4 =>
            have hli := getToss_inv hs hg
            exact storeInv_saveToss env s _ hs hli

theorem storeInv_finishSuccess (env : Env) (s : TMState)
    (toss1 : CoinTossGame) (tw : AgentWalletData) (hs : storeInv s)
    (ht : listInv toss1) : storeInv (finishSuccess env s toss1 tw).1 := by
  unfold finishSuccess
  dsimp only
  refine storeInv_saveToss env _ _
    (storeInv_distributePrizes env _ _ _ _ _ _ hs) ?_
  exact ht

theorem storeInv_executeFinish (env : Env) (s : TMState)
    (toss : CoinTossGame) (w : String) (hs : storeInv s)
    (ht : listInv toss) : storeInv (executeFinish env s toss w).1 := by
  unfold executeFinish
  cases hm : matchingOptionFor toss w with
  | none =>
    dsimp only
    exact storeInv_saveToss env s _ hs ht
  | some matching =>
    dsimp only
    split
    · exact storeInv_saveToss env s _ hs ht
    · rcases hg : getWallet env s toss.id with ⟨s1, res⟩
      have hs1 : storeInv s1 := by
        refine storeInv_of_tossFiles_eq ?_ hs
        have h := (getWallet_frame env s toss.id).1
        rw [hg] at h
        exact h
      cases res with
      | error e => exact hs1
      | ok tw => exact storeInv_finishSuccess env s1 _ tw hs1 ht

theorem storeInv_executeCoinToss (env : Env) (s : TMState)
    (tid w : String) (hs : storeInv s) :
    storeInv (executeCoinToss env s tid w).1 := by
  unfold executeCoinToss
  rcases hsp : executeSetInProgress env s tid with ⟨smid, res⟩
  have hsmid : storeInv smid := by
    have h := storeInv_executeSetInProgress env s tid hs
    rw [hsp] at h
    exact h
  cases res with
  | error e => exact hsmid
  | ok tmid =>
    obtain ⟨t, hget, -, -, -, -, htm, -⟩ := executeSetInProgress_ok_inv hsp
    subst htm
    have hli := getToss_inv hs hget
    exact storeInv_executeFinish env smid _ w hsmid hli

end CoinToss

namespace Claims

open CoinToss

/-- C9: for every environment, `createGame` (and the prompt variant)
returns a record with both participant lists empty whenever its toss
file write succeeds; a successful `addPlayerToGame` requires the player
to be absent and appends exactly one entry to each list, preserving
equal lengths and no-duplicates; a player already present is rejected
with the `already in this toss` error and an unchanged state;
`executeCoinToss` and `cancelGame` never modify either list and
`joinGame` only returns the stored record; and every operation preserves
the invariant that all stored toss records have equally long participant
lists with no duplicate participants — whether or not any file write
succeeds. -/
theorem c9_participant_lists_invariant :
    (∀ (env : Env) s c a now s' t', env.writeOk (s.writes + 1) = true →
      createGame env s c a now = (s', .ok t') →
      t'.participants = [] ∧ t'.participantOptions = []) ∧
    (∀ (env : Env) s c parsed now s' t',
      env.writeOk (s.writes + 1) = true →
      createGameWithDetails env s c parsed now = (s', .ok t') →
      t'.participants = [] ∧ t'.participantOptions = []) ∧
    (∀ (env : Env) s tid p c hpd s' t' t, getToss s tid = some t →
      addPlayerToGame env s tid p c hpd = (s', .ok t') →
      p ∉ t.participants ∧
      t'.participants = t.participants ++ [p] ∧
      t'.participantOptions = t.participantOptions ++ [⟨p, c⟩] ∧
      (listInv t → listInv t')) ∧
    (∀ (env : Env) s tid p c hpd s' r t, getToss s tid = some t →
      (t.status = .CREATED ∨ t.status = .WAITING_FOR_PLAYER) →
      p ∈ t.participants →
      addPlayerToGame env s tid p c hpd = (s', r) →
      s' = s ∧ r = .error "You are already in this toss") ∧
    (∀ (env : Env) s tid w s' t' t, getToss s tid = some t →
      executeCoinToss env s tid w = (s', .ok t') →
      t'.participants = t.participants ∧
      t'.participantOptions = t.participantOptions) ∧
    (∀ (env : Env) s tid s' t' t, getToss s tid = some t →
      cancelGame env s tid = (s', .ok t') →
      t'.participants = t.participants ∧
      t'.participantOptions = t.participantOptions) ∧
    (∀ s tid p t', joinGame s tid p = .ok t' → getToss s tid = some t') ∧
    (∀ (env : Env) s, storeInv s →
      (∀ c a now, storeInv (createGame env s c a now).1) ∧
      (∀ c parsed now,
        storeInv (createGameWithDetails env s c parsed now).1) ∧
      (∀ tid p c hpd, storeInv (addPlayerToGame env s tid p c hpd).1) ∧
      (∀ tid w, storeInv (executeCoinToss env s tid w).1) ∧
      (∀ tid, storeInv (cancelGame env s tid).1)) := by
  refine ⟨?_, ?_, ?_, ?_, ?_, ?_, ?_, ?_⟩
  · intro env s c a now s' t' hw h
    exact createGame_empty_lists hw h
  · intro env s c parsed now s' t' hw h
    exact createGameWithDetails_empty_lists hw h
  · intro env s tid p c hpd s' t' t hget hrun
    obtain ⟨t2, hget2, -, hnm, -, -, ht', -⟩ := addPlayerToGame_ok_inv hrun
    rw [hget] at hget2
    injection hget2 with ht2
    subst ht2
    subst ht'
    refine ⟨hnm, rfl, rfl, ?_⟩
    rintro ⟨hlen, hnd⟩
    constructor
    · show (t.participants ++ [p]).length =
        (t.participantOptions ++ [(⟨p, c⟩ : Participant)]).length
      simp [hlen]
    · show (t.participants ++ [p]).Nodup
      exact hnd.append (List.nodup_singleton p)
        (List.disjoint_singleton.2 hnm)
  · intro env s tid p c hpd s' r t hget hst hpmem hrun
    have h1 : ¬(t.status ≠ .CREATED ∧ t.status ≠ .WAITING_FOR_PLAYER) := by
      rcases hst with h | h <;> simp [h]
    simp only [addPlayerToGame, hget] at hrun
    rw [if_neg h1, if_pos hpmem] at hrun
    simp only [Prod.mk.injEq] at hrun
    exact ⟨hrun.1.symm, hrun.2.symm⟩
  · intro env s tid w s' t' t hget hrun
    obtain ⟨t2, matching, s1x, twx, hget2, -, -, -, -, -, hfin⟩ :=
      executeCoinToss_ok_inv hrun
    rw [hget] at hget2
    injection hget2 with ht2
    subst ht2
    obtain ⟨sd, succ, link, -, -, -, hpart, hpo, -⟩ :=
      finishSuccess_props _ _ _ _ _ _ hfin
    exact ⟨hpart, hpo⟩
  · intro env s tid s' t' t hget hrun
    unfold cancelGame at hrun
    rw [hget] at hrun
    dsimp only at hrun
    split at hrun
    · simp at hrun
    · simp only [Prod.mk.injEq, Except.ok.injEq] at hrun
      rw [← hrun.2]
      exact ⟨rfl, rfl⟩
  · intro s tid p t' hrun
    unfold joinGame at hrun
    cases hget : getToss s tid with
    | none => rw [hget] at hrun; simp at hrun
    | some t =>
      rw [hget] at hrun
      dsimp only at hrun
      split at hrun
      case isTrue => simp at hrun
      case isFalse =>
        split at hrun
        case isTrue => simp at hrun
        case isFalse =>
          rw [Except.ok.injEq] at hrun
          subst hrun
          rfl
  · intro env s hs
    exact ⟨fun c a now => storeInv_createGame env s c a now hs,
      fun c parsed now =>
        storeInv_createGameWithDetails env s c parsed now hs,
      fun tid p c hpd => storeInv_addPlayerToGame env s tid p c hpd hs,
      fun tid w => storeInv_executeCoinToss env s tid w hs,
      fun tid => storeInv_cancelGame env s tid hs⟩

/-- Witness for C9's `addPlayerToGame` conjunct: player p2 joining the
stored witness toss after p1. -/
theorem c9_participant_lists_invariant_witness :
    CoinToss.getToss Witness.wAdd1.1 "1" = some Witness.wT1 ∧
    CoinToss.addPlayerToGame Witness.wEnv Witness.wAdd1.1 "1" "p2" "yes"
      true = (Witness.wAdd2.1, .ok Witness.wT2) ∧
    ("p2" ∉ Witness.wT1.participants ∧
      Witness.wT2.participants = Witness.wT1.participants ++ ["p2"] ∧
      Witness.wT2.participantOptions =
        Witness.wT1.participantOptions ++ [⟨"p2", "yes"⟩] ∧
      (CoinToss.listInv Witness.wT1 → CoinToss.listInv Witness.wT2)) := by
  have h2 : Witness.wAdd2.2 = .ok Witness.wT2 := rfl
  have hrun : CoinToss.addPlayerToGame Witness.wEnv Witness.wAdd1.1 "1"
      "p2" "yes" true = (Witness.wAdd2.1, .ok Witness.wT2) := by
    rw [← h2]
    rfl
  exact ⟨by decide, hrun,
    c9_participant_lists_invariant.2.2.1 Witness.wEnv Witness.wAdd1.1 "1"
      "p2" "yes" true Witness.wAdd2.1 Witness.wT2 Witness.wT1 (by decide)
      hrun⟩

end Claims
namespace GroupTossListener

theorem charToLower_idem (c : Char) :
    Char.toLower (Char.toLower c) = Char.toLower c := by
  unfold Char.toLower
  dsimp only
  by_cases h : c.toNat ≥ 65 ∧ c.toNat ≤ 90
  · rw [if_pos h]
    have hv : Nat.isValidChar (c.toNat + 32) := Or.inl (by omega)
    have ht : (Char.ofNat (c.toNat + 32)).toNat = c.toNat + 32 := by
      rw [Char.ofNat, dif_pos hv]
      rfl
    rw [ht, if_neg (by omega)]
  · rw [if_neg h, if_neg h]

theorem map_toLower_idem : ∀ l : List Char,
    (l.map Char.toLower).map Char.toLower = l.map Char.toLower
  | [] => rfl
  | c :: cs => by
    simp only [List.map_cons]
    rw [charToLower_idem, map_toLower_idem cs]

theorem strToLower_idem (a : String) :
    strToLower (strToLower a) = strToLower a :=
  congrArg String.mk (map_toLower_idem a.data)

end GroupTossListener

namespace CoinToss

theorem mem_tossFiles_saveToss {env : Env} {s : TMState}
    {t : CoinTossGame} {kv : String × CoinTossGame}
    (h : kv ∈ (saveToss env s t).storage.tossFiles) :
    kv ∈ s.storage.tossFiles ∨ kv = (t.id, t) := by
  unfold saveToss at h
  split at h
  · exact mem_putFile _ _ _ _ h
  · exact Or.inl h

end CoinToss

namespace Claims

open CoinToss

/-- C3 (amended): when `executeCoinToss` succeeds, the pot is the parsed
toss amount times the participant count and the prize is the pot divided
by the number of winners; every on-chain transfer the run performs is
for exactly that prize; and a winner actually receives the prize
transfer exactly when the transfer's preconditions hold — their wallet
is stored, the toss wallet is stored and holds a sufficient balance, the
prize is non-zero, the destination address is valid and collides with no
stored toss wallet, and the on-chain send succeeds.  (Transfers whose
preconditions fail are silently skipped by the prize loop.) -/
theorem c3_even_prize_split (env : Env) (s : TMState) (tid w : String)
    (t t' : CoinTossGame) (s' : TMState)
    (hget : getToss s tid = some t) (hid : t.id = tid)
    (hrun : executeCoinToss env s tid w = (s', .ok t')) :
    ∃ matching, matchingOptionFor (inProgressToss t) w = some matching ∧
      totalPot t = parseFloatQ t.tossAmount * t.participants.length ∧
      prizePerWinner t (winnersFor t matching) =
        totalPot t / (winnersFor t matching).length ∧
      (∀ e ∈ s'.sent, e ∈ s.sent ∨
        e.amount = prizePerWinner t (winnersFor t matching)) ∧
      (∀ p ∈ winnersFor t matching, ¬ p.inboxId = "" →
        ∀ wd tw rec,
        storageGetWallet s p.inboxId = some wd →
        storageGetWallet s tid = some tw →
        tw.inboxId = tid →
        ¬ prizePerWinner t (winnersFor t matching) = 0 →
        ¬ env.balanceOf tw.agent_address <
          prizePerWinner t (winnersFor t matching) →
        isAddressLower (GroupTossListener.strToLower wd.agent_address) =
          true →
        (∀ kv ∈ s.storage.tossFiles,
          ¬ GroupTossListener.strToLower (kv.2).walletAddress =
            GroupTossListener.strToLower wd.agent_address) →
        env.send tw.agent_address
          (GroupTossListener.strToLower wd.agent_address)
          (prizePerWinner t (winnersFor t matching)) = .ok rec →
        (⟨tw.agent_address,
          GroupTossListener.strToLower wd.agent_address,
          prizePerWinner t (winnersFor t matching)⟩ : SentTransfer) ∈
          s'.sent) := by
  obtain ⟨t2, matching, s1, tw0, hget2, -, -, hm, -, hw, hfin⟩ :=
    executeCoinToss_ok_inv hrun
  rw [hget] at hget2
  injection hget2 with ht2
  subst ht2
  obtain ⟨sd, succ, link, hd, -, -, -, -, -, -, -, -, -, hs'⟩ :=
    finishSuccess_props _ _ _ _ _ _ hfin
  have hsent4 : s'.sent = sd.sent := by
    rw [hs']
    exact saveToss_sent env sd t'
  have hs1sent : s1.sent = s.sent := by
    have h := (getWallet_frame env (updateToss env s (inProgressToss t))
      (inProgressToss t).id).2.1
    rw [hw] at h
    exact h.trans (saveToss_sent env s (inProgressToss t))
  refine ⟨matching, hm, rfl, rfl, ?_, ?_⟩
  · intro e he
    rw [hsent4] at he
    have hdt : distributePrizes env tw0.inboxId
        (prizePerWinner t (winnersFor t matching))
        (winnersFor t matching) s1 [] t.transactionLink =
        (sd, succ, link) := hd
    have h := distributePrizes_amounts env tw0.inboxId
      (prizePerWinner t (winnersFor t matching))
      (winnersFor t matching) s1 [] t.transactionLink e
      (by rw [hdt]; exact he)
    rcases h with h | h
    · rw [hs1sent] at h
      exact Or.inl h
    · exact Or.inr h
  · intro p hp hpne wd tw rec hwd htwS hself hq hbal hvalid hnoc hsend
    have hw2 : getWallet env (updateToss env s (inProgressToss t))
        (inProgressToss t).id =
        (updateToss env s (inProgressToss t), .ok tw) := by
      apply getWallet_of_stored
      have hidm : (inProgressToss t).id = tid := hid
      rw [hidm]
      exact (storedWallet_saveToss env s (inProgressToss t) tid).trans htwS
    have hpair := hw2.symm.trans hw
    simp only [Prod.mk.injEq, Except.ok.injEq] at hpair
    obtain ⟨hs1eq, htweq⟩ := hpair
    subst htweq
    subst hs1eq
    have hdt : distributePrizes env tw.inboxId
        (prizePerWinner t (winnersFor t matching))
        (winnersFor t matching) (updateToss env s (inProgressToss t)) []
        t.transactionLink = (sd, succ, link) := hd
    have hwdm : storageGetWallet (updateToss env s (inProgressToss t))
        p.inboxId = some wd :=
      (storedWallet_saveToss env s (inProgressToss t) p.inboxId).trans hwd
    have htwm : storageGetWallet (updateToss env s (inProgressToss t))
        tw.inboxId = some tw := by
      rw [hself]
      exact (storedWallet_saveToss env s (inProgressToss t) tid).trans htwS
    have hrt : getTossIdFromAddress (updateToss env s (inProgressToss t))
        (GroupTossListener.strToLower wd.agent_address) = none := by
      unfold getTossIdFromAddress
      rw [if_neg (by simp [hvalid])]
      have hfind : (listActiveTosses
          (updateToss env s (inProgressToss t))).find?
          (fun tr => GroupTossListener.strToLower tr.walletAddress ==
            GroupTossListener.strToLower
              (GroupTossListener.strToLower wd.agent_address)) = none := by
        rw [List.find?_eq_none]
        intro tr htr
        have htr2 : tr ∈ ((updateToss env s
            (inProgressToss t)).storage.tossFiles.map (fun f => f.2)) :=
          (List.mem_filter.mp htr).1
        rcases List.mem_map.mp htr2 with ⟨kv, hkv, hkve⟩
        rcases mem_tossFiles_saveToss hkv with hin | heq
        · rw [← hkve]
          simp only [beq_iff_eq, GroupTossListener.strToLower_idem]
          exact hnoc kv hin
        · rw [← hkve, heq]
          simp only [beq_iff_eq, GroupTossListener.strToLower_idem]
          show ¬ GroupTossListener.strToLower t.walletAddress = _
          obtain ⟨kv0, hkv0, hkv0e⟩ := getFile_mem _ _ _ hget
          have h := hnoc kv0 hkv0
          rw [hkv0e] at h
          exact h
      rw [hfind]
    have hmem := distributePrizes_covers env tw.inboxId
      (prizePerWinner t (winnersFor t matching)) p wd tw rec hq hbal
      hvalid hsend hpne (winnersFor t matching)
      (updateToss env s (inProgressToss t)) [] t.transactionLink hp hwdm
      htwm hrt
    rw [hdt] at hmem
    rw [hsent4]
    exact hmem

/-- C3 (counterexample to the original claim): under the zero-balance
environment the toss completes — the coin is tossed, both players who
chose the winning option are winners, the pot is `10` and the per-winner
prize is `5` — yet no transfer at all is sent: every prize payment hits
the insufficient-balance branch of `transfer`, is silently skipped, and
the run merely records `paymentSuccess = false`.  The winners do not
"each receive exactly half the pot". -/
theorem c3_counterexample :
    ∃ s' t3,
      getToss Witness.cAdd2.1 "1" = some Witness.wT2 ∧
      (winnersFor Witness.wT2 "yes").length = 2 ∧
      totalPot Witness.wT2 = 10 ∧
      prizePerWinner Witness.wT2 (winnersFor Witness.wT2 "yes") = 5 ∧
      executeCoinToss Witness.wEnvLow Witness.cAdd2.1 "1" "yes" =
        (s', .ok t3) ∧
      t3.status = .COMPLETED ∧
      t3.paymentSuccess = false ∧
      s'.sent = [] := by
  obtain ⟨s4, t3, sd, succ, link, hexec, hd, hs4, hid3, hst3, hamt3,
      hopt3, hpart3, hpo3, hres3, hps3⟩ :=
    executeCoinToss_ok Witness.wEnvLow Witness.cAdd2.1 "1" "yes"
      Witness.wT2 "yes" Witness.wTossWallet (by decide) rfl rfl
      (by decide) (by decide) (by decide) (by decide) (by decide)
      (by decide)
  have hq5 : parseFloatQ Witness.wT2.tossAmount =
      ((5 : Nat) : ℚ) + ((0 : Nat) : ℚ) / (10 : ℚ) ^ (0 : Nat) := rfl
  have hlen2 : ((Witness.wT2.participants.length : ℚ)) = (2 : ℚ) := by
    norm_num [show Witness.wT2.participants.length = 2 from by decide]
  have hpot : totalPot Witness.wT2 = 10 := by
    unfold totalPot
    rw [hq5, hlen2]
    norm_num
  have hwl : (winnersFor Witness.wT2 "yes").length = 2 := by decide
  have hprize : prizePerWinner Witness.wT2
      (winnersFor Witness.wT2 "yes") = 5 := by
    unfold prizePerWinner
    rw [hpot, hwl]
    norm_num
  have hq : ¬ prizePerWinner Witness.wT2
      (winnersFor Witness.wT2 "yes") = 0 := by
    rw [hprize]
    norm_num
  have hbal : ∀ addr, Witness.wEnvLow.balanceOf addr <
      prizePerWinner Witness.wT2 (winnersFor Witness.wT2 "yes") := by
    intro addr
    rw [hprize]
    show (0 : ℚ) < 5
    norm_num
  have hnp := distributePrizes_noPay Witness.wEnvLow
    Witness.wTossWallet.inboxId
    (prizePerWinner Witness.wT2 (winnersFor Witness.wT2 "yes")) hq hbal
    (winnersFor Witness.wT2 "yes")
    (updateToss Witness.wEnvLow Witness.cAdd2.1
      (inProgressToss Witness.wT2)) [] Witness.wT2.transactionLink
  rw [hd] at hnp
  have hsucc : succ = [] := hnp.1
  have hps : t3.paymentSuccess = false := by
    rw [hps3, hsucc]
    decide
  have hsent : s4.sent = [] := by
    have e1 : s4.sent = sd.sent := by
      rw [hs4]
      exact saveToss_sent Witness.wEnvLow sd t3
    have e2 : sd.sent = (updateToss Witness.wEnvLow Witness.cAdd2.1
        (inProgressToss Witness.wT2)).sent := hnp.2
    have e3 : (updateToss Witness.wEnvLow Witness.cAdd2.1
        (inProgressToss Witness.wT2)).sent = Witness.cAdd2.1.sent :=
      saveToss_sent _ _ _
    rw [e1, e2, e3]
    rfl
  exact ⟨s4, t3, by decide, by decide, hpot, hprize, hexec, hst3, hps,
    hsent⟩

/-- Witness for C3 (amended) at the benign environment: in the concrete
two-player toss both hypotheses and conclusion hold — the run completes,
every sent amount equals the per-winner prize, and player p1, whose
wallet is stored and whose transfer succeeds, actually receives the
prize transfer. -/
theorem c3_even_prize_split_witness :
    ∃ s' t3,
      getToss Witness.wAdd2.1 "1" = some Witness.wT2 ∧
      executeCoinToss Witness.wEnv Witness.wAdd2.1 "1" "yes" =
        (s', .ok t3) ∧
      (∃ matching,
        matchingOptionFor (inProgressToss Witness.wT2) "yes" =
          some matching ∧
        totalPot Witness.wT2 =
          parseFloatQ Witness.wT2.tossAmount *
            Witness.wT2.participants.length ∧
        prizePerWinner Witness.wT2 (winnersFor Witness.wT2 matching) =
          totalPot Witness.wT2 /
            (winnersFor Witness.wT2 matching).length ∧
        (∀ e ∈ s'.sent, e ∈ Witness.wAdd2.1.sent ∨
          e.amount = prizePerWinner Witness.wT2
            (winnersFor Witness.wT2 matching))) ∧
      (⟨Witness.addrToss, GroupTossListener.strToLower Witness.addrP1,
        prizePerWinner Witness.wT2 (winnersFor Witness.wT2 "yes")⟩ :
        SentTransfer) ∈ s'.sent := by
  obtain ⟨s4, t3, sd, succ, link, hexec, -, -, -, -, -, -, -, -, -, -⟩ :=
    executeCoinToss_ok Witness.wEnv Witness.wAdd2.1 "1" "yes" Witness.wT2
      "yes" Witness.wTossWallet (by decide) rfl rfl (by decide)
      (by decide) (by decide) (by decide) (by decide) (by decide)
  obtain ⟨matching, hm, hpotEq, hprizeEq, hamts, hcov⟩ :=
    c3_even_prize_split Witness.wEnv Witness.wAdd2.1 "1" "yes" Witness.wT2
      t3 s4 (by decide) rfl hexec
  have hmy : matching = "yes" := by
    have h0 : matchingOptionFor (inProgressToss Witness.wT2) "yes" =
        some "yes" := by decide
    have h1 := h0.symm.trans hm
    injection h1 with h2
    exact h2.symm
  subst hmy
  have hq5 : parseFloatQ Witness.wT2.tossAmount =
      ((5 : Nat) : ℚ) + ((0 : Nat) : ℚ) / (10 : ℚ) ^ (0 : Nat) := rfl
  have hlen2 : ((Witness.wT2.participants.length : ℚ)) = (2 : ℚ) := by
    norm_num [show Witness.wT2.participants.length = 2 from by decide]
  have hpot : totalPot Witness.wT2 = 10 := by
    unfold totalPot
    rw [hq5, hlen2]
    norm_num
  have hwl : (winnersFor Witness.wT2 "yes").length = 2 := by decide
  have hprize : prizePerWinner Witness.wT2
      (winnersFor Witness.wT2 "yes") = 5 := by
    unfold prizePerWinner
    rw [hpot, hwl]
    norm_num
  have hc := hcov ⟨"p1", "yes"⟩ (by decide) (by decide) Witness.wWalletP1
    Witness.wTossWallet ⟨some "tx:link"⟩ (by decide) (by decide) rfl
    (by rw [hprize]; norm_num)
    (by rw [hprize]; show ¬ (100 : ℚ) < 5; norm_num)
    (by decide) (by decide) rfl
  exact ⟨s4, t3, by decide, hexec, ⟨"yes", hm, hpotEq, hprizeEq, hamts⟩,
    hc⟩

end Claims
namespace GroupTossAgent

/-- On an AI-completion failure the natural-language branch replies with
the JSON-extraction error, not with the apology: `processMessage`
catches the throw and returns `apologyReply`, which contains no brace,
so `extractJsonFromResponse` finds no JSON and
`parseNaturalLanguageToss` throws the no-JSON error, which the catch of
`handleCommand` sends as the reply. -/
theorem naturalReply_error_noJson (jsonParse : String → Option TossJson)
    (e : String) (env : CoinToss.Env) (balance : ℚ)
    (address : Option String) (s : CoinToss.TMState)
    (prompt inboxId : String) (now : Nat)
    (hlen : ¬ prompt.data.length < 3) (hbal : ¬ balance < 1 / 100) :
    handleCommandNaturalReply jsonParse (.error e) env balance address s
      prompt inboxId now =
      (s, "Invalid toss request: No JSON found in response") := by
  have hjm : jsonMatchList apologyReply.data = none := by decide
  have hex : extractJsonFromResponse jsonParse (processMessage (.error e)) =
      none := by
    unfold extractJsonFromResponse
    rw [show processMessage (.error e) = apologyReply from rfl, hjm]
  simp only [handleCommandNaturalReply, handleNaturalLanguageCommand,
    createGameFromPrompt, parseNaturalLanguageToss, if_neg hbal,
    if_neg hlen, hex]

end GroupTossAgent

namespace Claims

/-- C8 counterexample: the message "Will it rain tomorrow for 5" routes
to the natural-language branch of `handleCommand`; with the AI call
throwing, the reply actually sent to the user is the no-JSON parse
error, not the apology string the claim says is sent back. -/
theorem c8_counterexample :
    GroupTossCommands.handleCommandDispatch "Will it rain tomorrow for 5" =
      .natural "Will it rain tomorrow for 5" ∧
    (GroupTossAgent.handleCommandNaturalReply (fun _ => none) (.error "boom")
        Witness.wEnv 1 (some "0xw") Witness.wInit
        "Will it rain tomorrow for 5" "creator" 0).2 =
      "Invalid toss request: No JSON found in response" ∧
    (GroupTossAgent.handleCommandNaturalReply (fun _ => none) (.error "boom")
        Witness.wEnv 1 (some "0xw") Witness.wInit
        "Will it rain tomorrow for 5" "creator" 0).2 ≠
      GroupTossAgent.apologyReply := by
  have h := GroupTossAgent.naturalReply_error_noJson (fun _ => none) "boom"
    Witness.wEnv 1 (some "0xw") Witness.wInit
    "Will it rain tomorrow for 5" "creator" 0 (by decide) (by norm_num)
  refine ⟨by decide, ?_, ?_⟩
  · rw [h]
  · rw [h]
    decide

/-- C8 (amended): when the outbound AI call inside `processMessage`
throws, the exception is not propagated and the fixed apology string is
returned; in the group-toss agent, however, that apology is fed to the
JSON extractor, so the chat reply sent back to the user on an AI failure
of a toss-creation prompt is "Invalid toss request: No JSON found in
response", not the apology itself. -/
theorem c8_error_reply (jsonParse : String → Option GroupTossAgent.TossJson)
    (e : String) (env : CoinToss.Env) (balance : ℚ)
    (address : Option String) (s : CoinToss.TMState)
    (prompt inboxId : String) (now : Nat)
    (hlen : ¬ prompt.data.length < 3) (hbal : ¬ balance < 1 / 100) :
    GroupTossAgent.processMessage (.error e) = GroupTossAgent.apologyReply ∧
    GroupTossAgent.handleCommandNaturalReply jsonParse (.error e) env
      balance address s prompt inboxId now =
      (s, "Invalid toss request: No JSON found in response") ∧
    "Invalid toss request: No JSON found in response" ≠
      GroupTossAgent.apologyReply :=
  ⟨rfl, GroupTossAgent.naturalReply_error_noJson jsonParse e env balance
    address s prompt inboxId now hlen hbal, by decide⟩

/-- Witness for C8: a concrete instance at prompt "Will it rain tomorrow
for 5", balance 1 USDC, with the AI call throwing "boom". -/
theorem c8_error_reply_witness :
    (¬ ("Will it rain tomorrow for 5" : String).data.length < 3) ∧
    (¬ (1 : ℚ) < 1 / 100) ∧
    (GroupTossAgent.processMessage (.error "boom") =
      GroupTossAgent.apologyReply ∧
    GroupTossAgent.handleCommandNaturalReply (fun _ => none) (.error "boom")
      Witness.wEnv 1 (some "0xw") Witness.wInit
      "Will it rain tomorrow for 5" "creator" 0 =
      (Witness.wInit, "Invalid toss request: No JSON found in response") ∧
    "Invalid toss request: No JSON found in response" ≠
      GroupTossAgent.apologyReply) := by
  have hbal : ¬ (1 : ℚ) < 1 / 100 := by norm_num
  exact ⟨by decide, hbal,
    c8_error_reply (fun _ => none) "boom" Witness.wEnv 1 (some "0xw")
      Witness.wInit "Will it rain tomorrow for 5" "creator" 0
      (by decide) hbal⟩

end Claims
namespace StreamRetry

theorem runFailures_eq : ∀ (n r : Nat),
    runFailures n ⟨r⟩ =
      (⟨r - n⟩,
       List.replicate (min n r) (.resubscribe RETRY_INTERVAL) ++
       List.replicate (n - r) (.exitProcess 1)) := by
  intro n
  induction n with
  | zero => intro r; simp [runFailures]
  | succ n ih =>
    intro r
    cases r with
    | zero =>
      simp only [runFailures, onFail, retry]
      rw [if_neg (by omega)]
      dsimp only
      rw [ih 0]
      simp [List.replicate_succ]
    | succ r' =>
      simp only [runFailures, onFail, retry]
      rw [if_pos (by omega)]
      dsimp only
      rw [show r' + 1 - 1 = r' from rfl, ih r']
      simp only [Prod.mk.injEq]
      refine ⟨by simp, ?_⟩
      rw [Nat.succ_sub_succ, Nat.succ_min_succ, List.replicate_succ]
      simp

theorem countResubs_append (a b : List RetryEffect) :
    countResubs (a ++ b) = countResubs a + countResubs b := by
  simp [countResubs, List.filter_append]

theorem countResubs_replicate_resub (k d : Nat) :
    countResubs (List.replicate k (.resubscribe d)) = k := by
  induction k with
  | zero => rfl
  | succ k ih =>
    rw [List.replicate_succ]
    simp only [countResubs, List.filter_cons] at ih ⊢
    simpa using ih

theorem countResubs_replicate_exit (k c : Nat) :
    countResubs (List.replicate k (.exitProcess c)) = 0 := by
  induction k with
  | zero => rfl
  | succ k ih =>
    rw [List.replicate_succ]
    simp only [countResubs, List.filter_cons] at ih ⊢
    simpa using ih

end StreamRetry

namespace Claims

open StreamRetry

/-- C5 (code bug in xmtp-skills): the `streamAllMessages()` call of
xmtp-skills registers no failure callback, so a subscription-level
failure there produces no retry effect at all; the XmtpHelper variant
(src/unnamed/part_016) registers `onFail`, and the retry routine itself
behaves exactly as claimed: each of the first `MAX_RETRIES = 5` failures
schedules one re-subscription after `RETRY_INTERVAL = 5000` ms, and
every further failure exits the process with code 1. -/
theorem c5_retry_budget :
    skillsRegistersOnFail = false ∧
    (∀ s, effectsOnOneFailure skillsRegistersOnFail s = []) ∧
    helperRegistersOnFail = true ∧
    (∀ s, effectsOnOneFailure helperRegistersOnFail s = [(retry s).2]) ∧
    MAX_RETRIES = 5 ∧ RETRY_INTERVAL = 5000 ∧
    (∀ n, runFailures n ⟨MAX_RETRIES⟩ =
      (⟨MAX_RETRIES - n⟩,
       List.replicate (min n MAX_RETRIES) (.resubscribe RETRY_INTERVAL) ++
       List.replicate (n - MAX_RETRIES) (.exitProcess 1))) :=
  ⟨rfl, fun _ => rfl, rfl, fun _ => rfl, rfl, rfl,
   fun n => runFailures_eq n MAX_RETRIES⟩

/-- C10 counterexample: `handleMessageAsync` resets the private retries
counter to `MAX_RETRIES` after a successfully processed message
(src/examples/xmtp-skills/xmtp-skills.ts:161), so starting from 3
retries left the counter jumps back to 5 (it does not only decrease),
and the event sequence five failures, one successful message, one more
failure drives six re-subscriptions. -/
theorem c10_counterexample :
    (skillsStep ⟨3⟩ .messageSuccess).1.retries = 5 ∧
    ¬ (skillsStep ⟨3⟩ .messageSuccess).1.retries ≤ 3 ∧
    countResubs (skillsRun ⟨MAX_RETRIES⟩
      [.streamFail, .streamFail, .streamFail, .streamFail, .streamFail,
       .messageSuccess, .streamFail]).2 = 6 ∧
    MAX_RETRIES < 6 := by
  refine ⟨rfl, by decide, ?_, by decide⟩
  decide

/-- C10 amended: the retries counter is reset to `MAX_RETRIES` by every
successfully processed message, so the 5-retry budget only bounds runs
of consecutive failures (at most `min n r` re-subscriptions for `n`
failures from `r ≤ 5` retries left), while across a lifetime with
intervening successful messages more than `MAX_RETRIES`
re-subscriptions are possible. -/
theorem c10_retries_reset :
    (∀ s, (skillsStep s .messageSuccess).1.retries = MAX_RETRIES) ∧
    (∀ n r, r ≤ MAX_RETRIES →
      countResubs (runFailures n ⟨r⟩).2 = min n r ∧
      min n r ≤ MAX_RETRIES) ∧
    (∃ events, MAX_RETRIES <
      countResubs (skillsRun ⟨MAX_RETRIES⟩ events).2) := by
  refine ⟨fun _ => rfl, ?_, ?_⟩
  · intro n r hr
    rw [runFailures_eq n r]
    constructor
    · rw [countResubs_append, countResubs_replicate_resub,
        countResubs_replicate_exit]
      omega
    · exact le_trans (Nat.min_le_right n r) hr
  · exact ⟨[.streamFail, .streamFail, .streamFail, .streamFail,
      .streamFail, .messageSuccess, .streamFail], by decide⟩

/-- Witness for the amended C10 theorem at `n = 7`, `r = 5`. -/
theorem c10_retries_reset_witness :
    (5 : Nat) ≤ MAX_RETRIES ∧
    (countResubs (runFailures 7 ⟨5⟩).2 = min 7 5 ∧
      min 7 5 ≤ MAX_RETRIES) :=
  ⟨by decide, c10_retries_reset.2.1 7 5 (by decide)⟩

end Claims

namespace GroupTossListener

theorem tossMentionAt_false_of_no_mention (c : Char) (cs : List Char)
    (h : startsWithCI "@toss".data (c :: cs) = false) :
    tossMentionAt (c :: cs) = false := by
  unfold tossMentionAt
  rw [h]
  rfl

theorem scanTossMention_eq_none :
    ∀ cs, hasTossSubstring cs = false → scanTossMention cs = none := by
  intro cs
  induction cs with
  | nil => intro _; rfl
  | cons c cs ih =>
    intro h
    simp only [hasTossSubstring, Bool.or_eq_false_iff] at h
    simp only [scanTossMention]
    rw [if_neg (by simp [tossMentionAt_false_of_no_mention c cs h.1])]
    exact ih h.2

end GroupTossListener

namespace Claims

open GroupTossListener GmExample GroupTossCommands

/-- C2: an inbound event whose sender inbox id equals the client's own
inbox id (compared case-insensitively) is skipped before any reply
logic, both in the group-toss `startMessageListener` loop and in the
xmtp-gm stream callback. -/
theorem c2_self_messages_skipped (clientInboxId : String)
    (msg : XmtpModel.DecodedMessage) (convFound isGroup : Bool)
    (h : strToLower msg.senderInboxId = strToLower clientInboxId) :
    listenerStep clientInboxId msg convFound = .skip ∧
    gmStep clientInboxId msg convFound isGroup = .skip := by
  constructor
  · unfold listenerStep
    rw [if_pos (Or.inl h)]
  · unfold gmStep
    rw [if_pos h]

/-- Witness for C2: an uppercase variant of the agent's own inbox id. -/
theorem c2_self_messages_skipped_witness :
    strToLower "0xAbC" = strToLower "0xabc" ∧
    (listenerStep "0xabc" ⟨"0xAbC", some "text", "@toss help", "c1"⟩ true =
        .skip ∧
      gmStep "0xabc" ⟨"0xAbC", some "text", "@toss help", "c1"⟩ true false =
        .skip) :=
  ⟨by decide, c2_self_messages_skipped "0xabc"
    ⟨"0xAbC", some "text", "@toss help", "c1"⟩ true false (by decide)⟩

/-- C6: an inbound event whose content-type id is not `"text"` is
skipped without replying, both in the group-toss listener and in the
xmtp-gm callback. -/
theorem c6_non_text_skipped (clientInboxId : String)
    (msg : XmtpModel.DecodedMessage) (convFound isGroup : Bool)
    (h : msg.contentTypeId ≠ some "text") :
    listenerStep clientInboxId msg convFound = .skip ∧
    gmStep clientInboxId msg convFound isGroup = .skip := by
  constructor
  · unfold listenerStep
    rw [if_pos (Or.inr h)]
  · simp [gmStep, h]

/-- Witness for C6: a reaction-typed event. -/
theorem c6_non_text_skipped_witness :
    (some "reaction" : Option String) ≠ some "text" ∧
    (listenerStep "agent" ⟨"sender", some "reaction", "hi", "c1"⟩ true =
        .skip ∧
      gmStep "agent" ⟨"sender", some "reaction", "hi", "c1"⟩ true false =
        .skip) :=
  ⟨by decide, c6_non_text_skipped "agent"
    ⟨"sender", some "reaction", "hi", "c1"⟩ true false (by decide)⟩

/-- C4: `"@toss join 5 yes"` extracts to the command text
`"join 5 yes"`, which dispatches to the explicit command `"join"` with
arguments `["5","yes"]`; `"@toss help"` dispatches to `help`, whose
reply is the static `HELP_MESSAGE`; and any message that does not
contain `@toss` extracts no command and is skipped by the listener. -/
theorem c4_command_parsing :
    (extractCommand "@toss join 5 yes" = some "join 5 yes" ∧
      handleCommandDispatch (commandContentOf "join 5 yes") =
        .explicit "join" ["5", "yes"] ∧
      parseExplicit "join" ["5", "yes"] = .joinCmd "5" (some "yes")) ∧
    (extractCommand "@toss help" = some "help" ∧
      handleCommandDispatch (commandContentOf "help") = .explicit "help" [] ∧
      explicitReplyStateless (parseExplicit "help" []) = some HELP_MESSAGE) ∧
    (∀ (clientInboxId : String) (msg : XmtpModel.DecodedMessage)
        (convFound : Bool),
      hasTossSubstring msg.content.data = false →
      extractCommand msg.content = none ∧
      listenerStep clientInboxId msg convFound = .skip) := by
  refine ⟨⟨by decide, by decide, by decide⟩, ⟨by decide, by decide, rfl⟩, ?_⟩
  intro clientInboxId msg convFound h
  have hex : extractCommand msg.content = none := by
    unfold extractCommand
    rw [scanTossMention_eq_none _ h]
    rfl
  refine ⟨hex, ?_⟩
  unfold listenerStep
  split
  · rfl
  · rw [hex]

/-- Witness for C4's un-prefixed case: `"hello world"`. -/
theorem c4_command_parsing_witness :
    hasTossSubstring ("hello world" : String).data = false ∧
    (extractCommand "hello world" = none ∧
      listenerStep "agent" ⟨"sender", some "text", "hello world", "c1"⟩
        true = .skip) :=
  ⟨by decide, c4_command_parsing.2.2 "agent"
    ⟨"sender", some "text", "hello world", "c1"⟩ true (by decide)⟩

end Claims

namespace Claims

open QueueDualClient

/-- C7: on a non-empty queue, `processMessageQueue` removes and sends a
message of maximal priority, and among equal-priority messages one with
the earliest timestamp. -/
theorem c7_queue_priority_order (q : List QueuedMessage) (hne : q ≠ []) :
    ∃ m rest, processMessageQueue q = (some m, rest) ∧ m ∈ q ∧
      ∀ x ∈ q, x.priority ≤ m.priority ∧
        (x.priority = m.priority → m.timestamp ≤ x.timestamp) := by
  have hperm := List.perm_insertionSort queueLE q
  cases hl : List.insertionSort queueLE q with
  | nil =>
    rw [hl] at hperm
    exact absurd hperm.nil_eq.symm hne
  | cons m rest =>
    have hsorted := List.sorted_insertionSort queueLE q
    rw [hl] at hsorted hperm
    refine ⟨m, rest, ?_, hperm.mem_iff.mp (List.mem_cons_self m rest), ?_⟩
    · unfold processMessageQueue
      rw [hl]
    · intro x hx
      rcases List.mem_cons.mp (hperm.mem_iff.mpr hx) with rfl | hxr
      · exact ⟨le_refl _, fun _ => le_refl _⟩
      · rcases List.rel_of_sorted_cons hsorted x hxr with hlt | ⟨heq, hts⟩
        · exact ⟨le_of_lt hlt,
            fun hpe => absurd hlt (by rw [hpe]; exact lt_irrefl _)⟩
        · exact ⟨le_of_eq heq.symm, fun _ => hts⟩

/-- Witness for C7: two priority-2 messages and one priority-1 message;
the selected message has priority 2 and the earlier timestamp 50. -/
theorem c7_queue_priority_order_witness :
    ([⟨"c1", "a", 1, 100⟩, ⟨"c2", "b", 2, 200⟩, ⟨"c3", "c", 2, 50⟩] :
      List QueuedMessage) ≠ [] ∧
    (∃ m rest,
      processMessageQueue
        [⟨"c1", "a", 1, 100⟩, ⟨"c2", "b", 2, 200⟩, ⟨"c3", "c", 2, 50⟩] =
        (some m, rest) ∧
      m ∈ ([⟨"c1", "a", 1, 100⟩, ⟨"c2", "b", 2, 200⟩,
        ⟨"c3", "c", 2, 50⟩] : List QueuedMessage) ∧
      ∀ x ∈ ([⟨"c1", "a", 1, 100⟩, ⟨"c2", "b", 2, 200⟩,
          ⟨"c3", "c", 2, 50⟩] : List QueuedMessage),
        x.priority ≤ m.priority ∧
        (x.priority = m.priority → m.timestamp ≤ x.timestamp)) :=
  ⟨by decide, c7_queue_priority_order
    [⟨"c1", "a", 1, 100⟩, ⟨"c2", "b", 2, 200⟩, ⟨"c3", "c", 2, 50⟩]
    (by decide)⟩

end Claims
